import Mathlib

/-!
Shallow embedding of the TenX single-pair aligner core
(src/SNAPLib/TenXSingleAligner.cpp) and proofs about the claims of the
specification.  Genome locations are modelled as integers, C `unsigned`
values as naturals, C `int` values as integers; the points where the C code
mixes `int` and `unsigned` (the usual arithmetic conversions) are made
explicit through `toU32` / `intOfU32` / `usub32`.  Match probabilities
(`double` in the source) are modelled as rationals: the only operations the
embedded code performs on them are multiplication and order comparison.
-/

namespace TenXSingleAligner

/-- Conversion of a C `int` value to `unsigned` (value modulo 2^32), as
performed by the usual arithmetic conversions whenever the source compares or
combines an `int` with an `unsigned`. -/
def toU32 (x : ℤ) : ℕ := (x % (2 ^ 32 : ℤ)).toNat

/-- Reinterpretation of a 32-bit unsigned value as a C `int`
(two's complement, as on the platforms SNAP targets). -/
def intOfU32 (n : ℕ) : ℤ := if n < 2 ^ 31 then (n : ℤ) else (n : ℤ) - 2 ^ 32

/-- Unsigned 32-bit subtraction `a - b`; wraps around on underflow. -/
def usub32 (a b : ℕ) : ℕ := (a + 2 ^ 32 - b % 2 ^ 32) % 2 ^ 32

theorem toU32_lt (x : ℤ) : toU32 x < 2 ^ 32 := by
  have h := Int.emod_lt_of_pos x (b := (2 ^ 32 : ℤ)) (by norm_num)
  have h0 := Int.emod_nonneg x (b := (2 ^ 32 : ℤ)) (by norm_num)
  simp only [toU32]
  omega

theorem toU32_of_small (x : ℤ) (h0 : 0 ≤ x) (h : x < 2 ^ 32) : toU32 x = x.toNat := by
  simp only [toU32, Int.emod_eq_of_lt h0 h]

theorem toU32_intOfU32 (n : ℕ) (h : n < 2 ^ 32) : toU32 (intOfU32 n) = n := by
  simp only [toU32, intOfU32]
  split
  · rw [Int.emod_eq_of_lt (by positivity) (by exact_mod_cast h)]
    exact Int.toNat_natCast n
  · omega

theorem usub32_of_le (a b : ℕ) (hba : b ≤ a) (ha : a < 2 ^ 32) : usub32 a b = a - b := by
  have hb : b < 2 ^ 32 := lt_of_le_of_lt hba ha
  simp only [usub32, Nat.mod_eq_of_lt hb]
  have h1 : a + 2 ^ 32 - b = (a - b) + 2 ^ 32 := by omega
  rw [h1, Nat.add_mod_right, Nat.mod_eq_of_lt (by omega)]

/-- Modelled from the spec: `genomeLocationIsWithin` comes from a header that is
not among the provided sources.  The spec describes every window it tests as a
closed interval ("within [C.locus − maxSpacing, C.locus + maxSpacing]"), so two
locations are within distance `d` iff their absolute difference is at most `d`. -/
def genomeLocationIsWithin (a b : ℤ) (d : ℕ) : Bool := (a - b).natAbs ≤ d

/-- Modelled from the spec: the sentinel genome location ("the sentinel
Invalid", "locus = Invalid"), defined outside the provided sources; only its
role as a sentinel matters here. -/
def InvalidGenomeLocation : ℤ := 2 ^ 62

/-- Alignment status of one read of a result
(NotFound / SingleHit / MultipleHits in the source). -/
inductive SnapAlignmentStatus where
  | NotFound
  | SingleHit
  | MultipleHits
deriving DecidableEq, Repr

export SnapAlignmentStatus (NotFound SingleHit MultipleHits)

/-- One entry of the `PairedAlignmentResult` record, restricted to the fields
the TenX aligner core writes.  The two per-read arrays of the source are
indexed here by role (the read with more hits / the read with fewer hits);
the role-to-read-number mapping `readWithMoreHits` is passed separately where
the source uses it. -/
structure PairedAlignmentResult where
  compensatedScore : ℤ
  alignedAsPair : Bool
  dirMore : ℕ
  dirFewer : ℕ
  fromAlignTogether : Bool
  locMore : ℤ
  locFewer : ℤ
  mapq0 : ℤ
  mapq1 : ℤ
  scoreMore : ℤ
  scoreFewer : ℤ
  statusMore : SnapAlignmentStatus
  statusFewer : SnapAlignmentStatus
  probability : ℚ
  clusterIdx : ℤ
deriving DecidableEq, Repr

/-- Placeholder record used for reads of never-written buffer slots. -/
def blankResult : PairedAlignmentResult :=
  { compensatedScore := 0, alignedAsPair := false, dirMore := 0, dirFewer := 0,
    fromAlignTogether := false, locMore := 0, locFewer := 0, mapq0 := 0, mapq1 := 0,
    scoreMore := 0, scoreFewer := 0, statusMore := NotFound, statusFewer := NotFound,
    probability := 0, clusterIdx := -1 }

/-- `ScoringMateCandidate`: per-mate scoring state (locus on the side with more
hits, best-possible score lower bound, seed offset, cached oracle results).
`score = -2` means not yet scored, `-1` means the oracle failed at the limit
`scoreLimit` used for the last attempt. -/
structure ScoringMateCandidate where
  readWithMoreHitsGenomeLocation : ℤ
  bestPossibleScore : ℕ
  seedOffset : ℕ
  score : ℤ
  scoreLimit : ℕ
  matchProbability : ℚ
  genomeOffset : ℤ
deriving DecidableEq, Repr

def defaultMate : ScoringMateCandidate :=
  { readWithMoreHitsGenomeLocation := 0, bestPossibleScore := 0, seedOffset := 0,
    score := -2, scoreLimit := 0, matchProbability := 0, genomeOffset := 0 }

/-- `ScoringCandidate`: per-candidate state for the read with fewer hits.  The
back-pointers of the source (`scoreListNext`, `mergeAnchor`) are arena indices
here, exactly as the spec design notes describe the encoding. -/
structure ScoringCandidate where
  readWithFewerHitsGenomeLocation : ℤ
  whichSetPair : ℕ
  scoringMateCandidateIndex : ℕ
  seedOffset : ℕ
  bestPossibleScore : ℕ
  clusterIdx : ℤ
  fewerEndScore : ℤ
  fewerEndGenomeLocationOffset : ℤ
  mergeAnchor : Option ℕ
deriving DecidableEq, Repr

def defaultCandidate : ScoringCandidate :=
  { readWithFewerHitsGenomeLocation := 0, whichSetPair := 0,
    scoringMateCandidateIndex := 0, seedOffset := 0, bestPossibleScore := 0,
    clusterIdx := -1, fewerEndScore := -2, fewerEndGenomeLocationOffset := 0,
    mergeAnchor := none }

/-- `MergeAnchor`: a representative of a neighbourhood of near-duplicate scored
pairs.  `locationForReadWithMoreHits = none` models `InvalidGenomeLocation`
(an anchor that holds no pair yet); the `candidate` and `mate` pointers of the
source are arena indices (`candidateIdx`, `mateIdx` into the mate pool of set
pair `anchorSetPair`). -/
structure MergeAnchor where
  locationForReadWithMoreHits : Option ℤ
  locationForReadWithFewerHits : ℤ
  matchProbability : ℚ
  pairScore : ℤ
  clusterIdx : ℤ
  candidateIdx : ℕ
  mateIdx : ℕ
  anchorSetPair : ℕ
deriving DecidableEq, Repr

/-- Modelled from the spec: `doesRangeMatch` lives in a header that is not
among the provided sources.  The spec says a merge anchor stands for a
"≤50-bp neighborhood" and that `checkMerge` installs the new values when "the
new location is outside the anchor's merge-range", so the range matches when
both ends lie within 50 bases of the stored anchor locations. -/
def MergeAnchor.doesRangeMatch (a : MergeAnchor) (newMore newFewer : ℤ) : Bool :=
  genomeLocationIsWithin newMore (a.locationForReadWithMoreHits.getD 0) 50 &&
  genomeLocationIsWithin newFewer a.locationForReadWithFewerHits 50

/-- `MergeAnchor::checkMerge` (TenXSingleAligner.cpp lines 1763-1819).  Returns
the updated anchor together with the boolean result of the source function:
`false` when the new values were installed (no prior location or outside the
merge range) or when they replaced the stored values as the better pair, and
`true` when the new pair "should just be ignored". -/
def MergeAnchor.checkMerge (a : MergeAnchor) (newMoreHitLocation newFewerHitLocation : ℤ)
    (newMatchProbability : ℚ) (newPairScore : ℤ) (newClusterIdx : ℤ)
    (newCandidateIdx newMateIdx newSetPair : ℕ) : MergeAnchor × Bool :=
  if a.locationForReadWithMoreHits = none ∨
      ¬ (a.doesRangeMatch newMoreHitLocation newFewerHitLocation = true) then
    ({ locationForReadWithMoreHits := some newMoreHitLocation,
       locationForReadWithFewerHits := newFewerHitLocation,
       matchProbability := newMatchProbability, pairScore := newPairScore,
       clusterIdx := newClusterIdx, candidateIdx := newCandidateIdx,
       mateIdx := newMateIdx, anchorSetPair := newSetPair }, false)
  else if (a.clusterIdx = -1 ∧ newClusterIdx ≠ -1) ∨
      (¬ (a.clusterIdx ≠ -1 ∧ newClusterIdx = -1) ∧
        (newPairScore < a.pairScore ∨
          (newPairScore = a.pairScore ∧ newMatchProbability > a.matchProbability))) then
    ({ locationForReadWithMoreHits := some newMoreHitLocation,
       locationForReadWithFewerHits := newFewerHitLocation,
       matchProbability := newMatchProbability, pairScore := newPairScore,
       clusterIdx := newClusterIdx, candidateIdx := newCandidateIdx,
       mateIdx := newMateIdx, anchorSetPair := newSetPair }, false)
  else
    (a, true)

/-- The compensated score `pairScore + astrayEDPenalty` of one anchor as
computed by `align_phase_3_correct_best_score` (an `int` plus an `unsigned`,
hence an `unsigned` value). -/
def correctBestCompensated (clusterEDCompensation minClusterSize : ℕ)
    (clusterCounterAry : ℤ → ℕ) (anchor : MergeAnchor) : ℕ :=
  let astrayEDPenalty : ℕ :=
    if anchor.clusterIdx ≠ -1 ∧ minClusterSize ≤ clusterCounterAry anchor.clusterIdx then 0
    else clusterEDCompensation
  toU32 (anchor.pairScore + (astrayEDPenalty : ℤ))

/-- The `newBestCompensatedScore` computed by the loop of
`align_phase_3_correct_best_score` (TenXSingleAligner.cpp lines 928-947):
the minimum compensated score over all anchors, starting from the absolute
maximum `maxK + extraSearchDepth + clusterEDCompensation + 1` (an `unsigned`
local, hence reduced mod 2^32). -/
def correctBestNewScore (maxK extraSearchDepth clusterEDCompensation minClusterSize : ℕ)
    (clusterCounterAry : ℤ → ℕ) (anchors : List MergeAnchor) : ℕ :=
  anchors.foldl
    (fun newBest anchor =>
      if correctBestCompensated clusterEDCompensation minClusterSize clusterCounterAry anchor <
          newBest then
        correctBestCompensated clusterEDCompensation minClusterSize clusterCounterAry anchor
      else newBest)
    ((maxK + extraSearchDepth + clusterEDCompensation + 1) % 2 ^ 32)

/-- `TenXSingleAligner::align_phase_3_correct_best_score`
(TenXSingleAligner.cpp lines 926-955).  Returns the updated
`bestCompensatedScore` reference together with the changed flag. -/
def align_phase_3_correct_best_score (maxK extraSearchDepth clusterEDCompensation : ℕ)
    (minClusterSize : ℕ) (clusterCounterAry : ℤ → ℕ) (anchors : List MergeAnchor)
    (bestCompensatedScore : ℤ) : ℤ × Bool :=
  let newBest := correctBestNewScore maxK extraSearchDepth clusterEDCompensation minClusterSize
    clusterCounterAry anchors
  if toU32 bestCompensatedScore ≠ newBest then (intOfU32 newBest, true)
  else (bestCompensatedScore, false)

theorem correctBestNewScore_lt (maxK extraSearchDepth clusterEDCompensation minClusterSize : ℕ)
    (clusterCounterAry : ℤ → ℕ) (anchors : List MergeAnchor) :
    correctBestNewScore maxK extraSearchDepth clusterEDCompensation minClusterSize
      clusterCounterAry anchors < 2 ^ 32 := by
  simp only [correctBestNewScore]
  generalize hinit : (maxK + extraSearchDepth + clusterEDCompensation + 1) % 2 ^ 32 = init
  have h : init < 2 ^ 32 := hinit ▸ Nat.mod_lt _ (by norm_num)
  clear hinit
  induction anchors generalizing init with
  | nil => exact h
  | cons a t ih =>
    simp only [List.foldl_cons]
    split
    · exact ih _ (toU32_lt _)
    · exact ih _ h

/-- C8: `align_phase_3_correct_best_score` is idempotent.  The recomputed best
compensated score depends only on the anchors, the cluster counters and the
configuration; after one call has stored it, an immediately repeated call with
no intervening change to the merge anchors or the cluster counters finds the
same value, leaves `bestCompensatedScore` unchanged and returns `false`. -/
theorem align_phase_3_correct_best_score_idempotent
    (maxK extraSearchDepth clusterEDCompensation minClusterSize : ℕ)
    (clusterCounterAry : ℤ → ℕ) (anchors : List MergeAnchor) (b0 : ℤ) :
    align_phase_3_correct_best_score maxK extraSearchDepth clusterEDCompensation minClusterSize
        clusterCounterAry anchors
        (align_phase_3_correct_best_score maxK extraSearchDepth clusterEDCompensation
          minClusterSize clusterCounterAry anchors b0).1 =
      ((align_phase_3_correct_best_score maxK extraSearchDepth clusterEDCompensation
          minClusterSize clusterCounterAry anchors b0).1, false) := by
  have hN := correctBestNewScore_lt maxK extraSearchDepth clusterEDCompensation minClusterSize
    clusterCounterAry anchors
  simp only [align_phase_3_correct_best_score]
  by_cases h : toU32 b0 ≠ correctBestNewScore maxK extraSearchDepth clusterEDCompensation
      minClusterSize clusterCounterAry anchors
  · rw [if_pos h]
    simp only
    rw [if_neg (by simp [toU32_intOfU32 _ hN])]
  · rw [if_neg h]
    simp only
    rw [if_neg h]

/-- `TenXSingleAligner::align_phase_3_increment_cluster`
(TenXSingleAligner.cpp lines 904-923).  For each anchor that is at least a
good secondary result, increments the shared cluster counter of its cluster
(saturating at 255, the maximum of `_uint8`) unless this pair's toggle for
that cluster is already set, and sets the toggle.  Returns the updated
counter array and toggle array. -/
def saturatingBump (cnt : ℤ → ℕ) (idx : ℤ) : ℤ → ℕ :=
  fun c => if c = idx then (if cnt idx ≠ 255 then cnt idx + 1 else cnt idx) else cnt c

def toggleSet (tgl : ℤ → Bool) (idx : ℤ) : ℤ → Bool :=
  fun c => if c = idx then true else tgl c

theorem saturatingBump_self (cnt : ℤ → ℕ) (idx : ℤ) :
    saturatingBump cnt idx idx = if cnt idx ≠ 255 then cnt idx + 1 else cnt idx := by
  simp [saturatingBump]

theorem saturatingBump_ne (cnt : ℤ → ℕ) (idx c : ℤ) (h : c ≠ idx) :
    saturatingBump cnt idx c = cnt c := by
  simp [saturatingBump, h]

theorem toggleSet_self (tgl : ℤ → Bool) (idx : ℤ) : toggleSet tgl idx idx = true := by
  simp [toggleSet]

theorem toggleSet_ne (tgl : ℤ → Bool) (idx c : ℤ) (h : c ≠ idx) :
    toggleSet tgl idx c = tgl c := by
  simp [toggleSet, h]

def align_phase_3_increment_cluster (clusterEDCompensation extraSearchDepth : ℕ)
    (anchors : List MergeAnchor) (bestCompensatedScore : ℤ)
    (clusterCounterAry : ℤ → ℕ) (clusterToggle : ℤ → Bool) :
    (ℤ → ℕ) × (ℤ → Bool) :=
  anchors.foldl
    (fun acc anchor =>
      let astrayEDPenalty : ℕ := if anchor.clusterIdx = -1 then clusterEDCompensation else 0
      if toU32 (anchor.pairScore + (astrayEDPenalty : ℤ)) ≤
          toU32 (bestCompensatedScore + (extraSearchDepth : ℤ)) then
        if anchor.clusterIdx ≠ -1 ∧ acc.2 anchor.clusterIdx = false then
          (saturatingBump acc.1 anchor.clusterIdx, toggleSet acc.2 anchor.clusterIdx)
        else acc
      else acc)
    (clusterCounterAry, clusterToggle)

/-- C7: the cluster counter is saturating and each (pair, cluster) increments
it at most once.  For every cluster identifier `c`: if this pair's toggle for
`c` is already set, the call leaves the counter at `c` untouched (and the
toggle stays set), so later qualifying anchors of the same pair never
increment `c` again; one call increments `c` at most once (anchors after the
first qualifying one find the toggle set); and a counter that is at most 255
stays at most 255.  Since every call preserves the 255 bound and set toggles,
the same bounds hold after any sequence of calls with the toggles honored. -/
theorem align_phase_3_increment_cluster_saturating_and_at_most_once
    (clusterEDCompensation extraSearchDepth : ℕ) (anchors : List MergeAnchor)
    (bestCompensatedScore : ℤ) (clusterCounterAry : ℤ → ℕ) (clusterToggle : ℤ → Bool) (c : ℤ) :
    (clusterToggle c = true →
      (align_phase_3_increment_cluster clusterEDCompensation extraSearchDepth anchors
          bestCompensatedScore clusterCounterAry clusterToggle).1 c = clusterCounterAry c ∧
      (align_phase_3_increment_cluster clusterEDCompensation extraSearchDepth anchors
          bestCompensatedScore clusterCounterAry clusterToggle).2 c = true) ∧
    (align_phase_3_increment_cluster clusterEDCompensation extraSearchDepth anchors
        bestCompensatedScore clusterCounterAry clusterToggle).1 c ≤ clusterCounterAry c + 1 ∧
    (clusterCounterAry c ≤ 255 →
      (align_phase_3_increment_cluster clusterEDCompensation extraSearchDepth anchors
          bestCompensatedScore clusterCounterAry clusterToggle).1 c ≤ 255) := by
  induction anchors generalizing clusterCounterAry clusterToggle with
  | nil =>
    simp only [align_phase_3_increment_cluster, List.foldl_nil]
    exact ⟨fun ht => ⟨trivial, ht⟩, by omega, fun h => h⟩
  | cons a t ih =>
    simp only [align_phase_3_increment_cluster, List.foldl_cons] at ih ⊢
    by_cases hq : toU32 (a.pairScore + ((if a.clusterIdx = -1 then clusterEDCompensation
        else 0 : ℕ) : ℤ)) ≤ toU32 (bestCompensatedScore + (extraSearchDepth : ℤ))
    · rw [if_pos hq]
      by_cases hcl : a.clusterIdx ≠ -1 ∧ clusterToggle a.clusterIdx = false
      · rw [if_pos hcl]
        have ih2 := ih (saturatingBump clusterCounterAry a.clusterIdx)
          (toggleSet clusterToggle a.clusterIdx)
        by_cases hc : c = a.clusterIdx
        · subst hc
          have heq := (ih2.1 (toggleSet_self clusterToggle a.clusterIdx)).1
          rw [saturatingBump_self] at heq
          refine ⟨fun hT => absurd hT (by simp [hcl.2]), ?_, ?_⟩
          · rw [heq]; split <;> omega
          · intro h255; rw [heq]; split <;> omega
        · rw [saturatingBump_ne clusterCounterAry a.clusterIdx c hc,
            toggleSet_ne clusterToggle a.clusterIdx c hc] at ih2
          exact ih2
      · rw [if_neg hcl]
        exact ih clusterCounterAry clusterToggle
    · rw [if_neg hq]
      exact ih clusterCounterAry clusterToggle

/-- Closed witness for the increment-cluster theorem at a concrete state:
one qualifying clustered anchor, counter at 254, toggle clear. -/
theorem align_phase_3_increment_cluster_saturating_witness :
    (align_phase_3_increment_cluster 3 2
        [{ locationForReadWithMoreHits := some 600, locationForReadWithFewerHits := 100,
           matchProbability := 1 / 2, pairScore := 4, clusterIdx := 7, candidateIdx := 0,
           mateIdx := 0, anchorSetPair := 0 }] 5 (fun _ => 254) (fun _ => false)).1 7 ≤ 255 ∧
      (align_phase_3_increment_cluster 3 2
        [{ locationForReadWithMoreHits := some 600, locationForReadWithFewerHits := 100,
           matchProbability := 1 / 2, pairScore := 4, clusterIdx := 7, candidateIdx := 0,
           mateIdx := 0, anchorSetPair := 0 }] 5 (fun _ => 254) (fun _ => true)).1 7 = 254 := by
  have h1 := align_phase_3_increment_cluster_saturating_and_at_most_once 3 2
    [{ locationForReadWithMoreHits := some 600, locationForReadWithFewerHits := 100,
       matchProbability := 1 / 2, pairScore := 4, clusterIdx := 7, candidateIdx := 0,
       mateIdx := 0, anchorSetPair := 0 }] 5 (fun _ => 254) (fun _ => false) 7
  have h2 := align_phase_3_increment_cluster_saturating_and_at_most_once 3 2
    [{ locationForReadWithMoreHits := some 600, locationForReadWithFewerHits := 100,
       matchProbability := 1 / 2, pairScore := 4, clusterIdx := 7, candidateIdx := 0,
       mateIdx := 0, anchorSetPair := 0 }] 5 (fun _ => 254) (fun _ => true) 7
  exact ⟨h1.2.2 (by norm_num), (h2.1 rfl).1⟩

/-- A read: its data bytes (65 = A, 67 = C, 71 = G, 84 = T, 78 = N) and a
parallel quality array. -/
structure SnapRead where
  data : List ℕ
  quality : List ℕ
deriving DecidableEq, Repr

def SnapRead.len (r : SnapRead) : ℕ := r.data.length

/-- `TenXSingleAligner::align` (TenXSingleAligner.cpp lines 1312-1358).  The
whole body is commented out ("this should be useless tools"); the function
returns `true` immediately.  The result record, the secondary-result buffer
and the secondary count are returned unchanged to make the absence of writes
explicit. -/
def align (read0 read1 : SnapRead) (result : PairedAlignmentResult)
    (maxEditDistanceForSecondaryResults secondaryResultBufferSize : ℤ)
    (nSecondaryResults : ℤ) (secondaryResults : List PairedAlignmentResult)
    (maxSecondaryResultsToReturn : ℤ) :
    Bool × PairedAlignmentResult × List PairedAlignmentResult × ℤ :=
  (true, result, secondaryResults, nSecondaryResults)

/-- C9: for every input, the top-level `align` entry point returns `true`
immediately without running any of the four phases, leaving the result record,
the secondary-result buffer and `nSecondaryResults` unmodified. -/
theorem align_returns_true_and_modifies_nothing (read0 read1 : SnapRead)
    (result : PairedAlignmentResult) (maxEditDistanceForSecondaryResults
    secondaryResultBufferSize nSecondaryResults : ℤ)
    (secondaryResults : List PairedAlignmentResult) (maxSecondaryResultsToReturn : ℤ) :
    align read0 read1 result maxEditDistanceForSecondaryResults secondaryResultBufferSize
        nSecondaryResults secondaryResults maxSecondaryResultsToReturn =
      (true, result, secondaryResults, nSecondaryResults) := rfl

/-- Number of entries allocated for the `scoringCandidates` weight-list array
by `allocateDynamicMemory` (TenXSingleAligner.cpp line 156): one list head per
best-possible score `0 .. maxK + extraSearchDepth`. -/
def scoringCandidatesEntryCount (maxK extraSearchDepth : ℕ) : ℕ :=
  maxK + extraSearchDepth + 1

/-- The weight-list index used by `align_phase_2_single_step_add_candidate`
(TenXSingleAligner.cpp lines 513-537): `none` when the guard
`lowestBestPossibleScoreOfAnyPossibleMate + bestPossibleScoreForReadWithFewerHits
≤ maxK + extraSearchDepth` rejects the candidate, otherwise the index
`scoringCandidates[...]` is written at: list 0 under `noOrderedEvaluation`,
else the lower bound plus the 10X cluster penalty
(`clusterEDCompensation` when `clusterIdx == -1`). -/
def addCandidateWeightListIndex (maxK extraSearchDepth clusterEDCompensation : ℕ)
    (noOrderedEvaluation : Bool) (clusterIdx : ℤ)
    (lowestBestPossibleScoreOfAnyPossibleMate bestPossibleScoreForReadWithFewerHits : ℕ) :
    Option ℕ :=
  if lowestBestPossibleScoreOfAnyPossibleMate + bestPossibleScoreForReadWithFewerHits ≤
      maxK + extraSearchDepth then
    some (if noOrderedEvaluation then 0
      else lowestBestPossibleScoreOfAnyPossibleMate + bestPossibleScoreForReadWithFewerHits +
        (if clusterIdx = -1 then clusterEDCompensation else 0))
  else none

/-- The initial (non-revise) phase-3 score limit (TenXSingleAligner.cpp line
726), which also bounds the weight-list scan index
`currentBestPossibleScoreList` of `align_phase_3_score`. -/
def phase3NonReviseScoreLimit (maxK extraSearchDepth clusterEDCompensation : ℕ) : ℕ :=
  (maxK + extraSearchDepth + clusterEDCompensation) % 2 ^ 32

/-- C3: the `scoringCandidates` weight-list array is indexed out of bounds.
With `maxK = 5`, `extraSearchDepth = 2`, `clusterEDCompensation = 3` the array
has `5 + 2 + 1 = 8` entries (indices 0..7), yet a candidate with
`clusterIdx = -1` whose mate/fewer lower bounds sum to `5 + 2 = 7` passes the
insertion guard and is written at index `7 + 3 = 10`; the phase-3 scan limit
is likewise `10`.  So the claimed bound `index ≤ maxK + extraSearchDepth`
fails and the access is outside the allocation. -/
theorem scoringCandidates_weight_list_index_out_of_bounds :
    addCandidateWeightListIndex 5 2 3 false (-1) 5 2 = some 10 ∧
      scoringCandidatesEntryCount 5 2 = 8 ∧
      phase3NonReviseScoreLimit 5 2 3 = 10 ∧
      ¬ (10 < scoringCandidatesEntryCount 5 2) := by decide

/-- A concrete merge anchor holding an unclustered pair with score 10 and
match probability 1/2 at location (more = 100, fewer = 0). -/
def demoStoredAnchor : MergeAnchor :=
  { locationForReadWithMoreHits := some 100
    locationForReadWithFewerHits := 0
    matchProbability := 1 / 2
    pairScore := 10
    clusterIdx := -1
    candidateIdx := 0
    mateIdx := 0
    anchorSetPair := 0 }

/-- C2: `checkMerge` does not report "accepted" when it replaces the stored
values: it returns `false` on install/replace and `true` when the new pair is
ignored, the opposite of the claimed convention.  First conjuncts: a strictly
better new pair (score 5 against stored 10, same location, both unclustered)
replaces the stored values, yet the function returns `false`.  Remaining
conjuncts: on the resulting anchor a strictly worse new pair (score 10 against
stored 5) is ignored (the stored values survive), yet the function returns
`true` -- and it is this return value that `align_phase_3_score` (line 876)
binds to `anchorUpdate` and uses as the "accepted" gate for updating
`bestCompensatedScore`. -/
theorem checkMerge_accepted_flag_inverted :
    ((demoStoredAnchor.checkMerge 100 0 (3 / 4) 5 (-1) 1 0 0).2 = false ∧
      (demoStoredAnchor.checkMerge 100 0 (3 / 4) 5 (-1) 1 0 0).1.pairScore = 5) ∧
    (((demoStoredAnchor.checkMerge 100 0 (3 / 4) 5 (-1) 1 0 0).1.checkMerge
        100 0 (1 / 4) 10 (-1) 2 0 0).2 = true ∧
      ((demoStoredAnchor.checkMerge 100 0 (3 / 4) 5 (-1) 1 0 0).1.checkMerge
        100 0 (1 / 4) 10 (-1) 2 0 0).1.pairScore = 5) := by decide

/-- One hash-table lookup of a `HashTableHitSet`: the descending-sorted hit
list, the seed offset it was made at, and the per-lookup cursor
`currentHitForIntersection`. -/
structure HashTableLookup where
  hits : List ℤ
  seedOffset : ℕ
  currentHitForIntersection : ℕ
deriving DecidableEq, Repr

/-- Total (Option-indexed) read of a hit list at a signed index, as the C code
reads `hits[i]`: `none` marks an access outside the array. -/
def hitAt (hits : List ℤ) (i : ℤ) : Option ℤ :=
  if 0 ≤ i then hits.get? i.toNat else none

/-- Search state threaded through
`HashTableHitSet::getNextHitLessThanOrEqualTo`.  `oobRead` is a ghost flag
recording that some `hits[...]` read went outside the array. -/
structure HitSearchState where
  anyFound : Bool
  bestLocationFound : ℤ
  mostRecentLocationReturned : ℤ
  actualGenomeLocationFound : ℤ
  seedOffsetFound : ℕ
  oobRead : Bool
deriving DecidableEq, Repr

/-- The per-lookup binary search of
`HashTableHitSet::getNextHitLessThanOrEqualTo` (TenXSingleAligner.cpp lines
1586-1651).  Arguments after the state: fuel (the real loop halves the
interval each pass, so `hits.length + 2` is enough), then `limit[0]` and
`limit[1]`.  Both `hits[probe]` and `hits[probe - 1]` are read before the
`probe == 0` test, exactly as in the source (lines 1606-1614); a read outside
the array sets `oobRead` and yields the dummy value 0 (whose uses are all
behind the short-circuit, so results are unaffected). -/
def getNextHitLEqSearch (maxToFindThisSeed : ℤ) (lk : HashTableLookup)
    (st : HitSearchState) : ℕ → ℤ → ℤ → HashTableLookup × HitSearchState
  | 0, _, _ => (lk, st)
  | fuel + 1, limit0, limit1 =>
    if limit0 > limit1 then
      ({ lk with currentHitForIntersection := lk.hits.length }, st)
    else
      let probe : ℤ := (limit0 + limit1) / 2
      let probeHitRead := hitAt lk.hits probe
      let probeMinusOneHitRead := hitAt lk.hits (probe - 1)
      let st := { st with
        oobRead := st.oobRead || probeHitRead.isNone || probeMinusOneHitRead.isNone }
      let probeHit := probeHitRead.getD 0
      let probeMinusOneHit := probeMinusOneHitRead.getD 0
      if probeHit ≤ maxToFindThisSeed ∧ (probe = 0 ∨ probeMinusOneHit > maxToFindThisSeed) then
        let lk := { lk with currentHitForIntersection := probe.toNat }
        if probeHit - lk.seedOffset > st.bestLocationFound then
          (lk,
            { st with
              anyFound := true
              bestLocationFound := probeHit - lk.seedOffset
              mostRecentLocationReturned := probeHit - lk.seedOffset
              actualGenomeLocationFound := probeHit - lk.seedOffset
              seedOffsetFound := lk.seedOffset })
        else (lk, st)
      else if probeHit > maxToFindThisSeed then
        getNextHitLEqSearch maxToFindThisSeed lk st fuel (probe + 1) limit1
      else
        getNextHitLEqSearch maxToFindThisSeed lk st fuel limit0 (probe - 1)

/-- `HashTableHitSet::getNextHitLessThanOrEqualTo`: run the binary search over
every lookup in order, threading the search state, with the search interval of
lookup `i` starting at `currentHitForIntersection` and ending at `nHits - 1`. -/
def getNextHitLessThanOrEqualTo (lookups : List HashTableLookup)
    (maxGenomeLocationToFind mostRecentLocationReturned : ℤ) :
    List HashTableLookup × HitSearchState :=
  lookups.foldl
    (fun acc lk =>
      let r := getNextHitLEqSearch (maxGenomeLocationToFind + lk.seedOffset) lk acc.2
        (lk.hits.length + 2) lk.currentHitForIntersection ((lk.hits.length : ℤ) - 1)
      (acc.1 ++ [r.1], r.2))
    ([], { anyFound := false, bestLocationFound := 0,
           mostRecentLocationReturned := mostRecentLocationReturned,
           actualGenomeLocationFound := 0, seedOffsetFound := 0, oobRead := false })

/-- A single-entry lookup state: one hit at genome location 100, seed offset
0, cursor at 0. -/
def demoLookup : HashTableLookup :=
  { hits := [100], seedOffset := 0, currentHitForIntersection := 0 }

/-- C10: the binary search reads `hits[probe - 1]` even on iterations where
`probe = 0`, because the source hoists both array reads above the `probe == 0`
test (its own comment states the intended short-circuit expression).  With a
single lookup whose hit list is `[100]`, cursor 0 and search bound 200, the
very first iteration has `probe = 0` and reads `hits[-1]`: the out-of-bounds
flag of the total embedding is set, refuting the claim that the read happens
only when `probe > 0`. -/
theorem getNextHitLEq_reads_hits_before_probe_check :
    (getNextHitLessThanOrEqualTo [demoLookup] 200 300).2.oobRead = true ∧
      (getNextHitLessThanOrEqualTo [demoLookup] 200 300).2.anyFound = true ∧
      (getNextHitLessThanOrEqualTo [demoLookup] 200 300).2.actualGenomeLocationFound = 100 := by
  decide

/-- The `setPairDirection` surrogate table used by the count/generate stages
(TenXSingleAligner.cpp line 1025): `{ {FORWARD, RC}, {65, FORWARD} }`, indexed
by set pair and read number (FORWARD = 0, RC = 1; 65 is the literal in the
source). -/
def setPairDirectionSurrogate (sp r : ℕ) : ℕ :=
  if sp = 0 then (if r = 0 then 0 else 1) else (if r = 0 then 65 else 0)

/-- Accumulator of the anchor loop of `align_phase_3_generate_results`:
`nextResultIdx`, `bestResultIdx` (-1 while no best found), the running
`bestCompensatedScore` reference, `probabilityOfBestPair`, and the secondary
result buffer. -/
structure GenerateAcc where
  nextResultIdx : ℕ
  bestResultIdx : ℤ
  bestCompensatedScore : ℤ
  probabilityOfBestPair : ℚ
  buffer : List PairedAlignmentResult
deriving DecidableEq, Repr

/-- One pass of the anchor loop of `align_phase_3_generate_results`
(TenXSingleAligner.cpp lines 1039-1086).  Freezes the cluster decision, writes
the qualifying anchor's result record at `nextResultIdx`, increments
`nextResultIdx`, and tracks the best result; the source stores
`bestResultIdx = nextResultIdx` after the increment. -/
def generateStep (clusterEDCompensation : ℕ) (unclusteredPenalty : ℚ)
    (clusterCounterAry : ℤ → ℕ) (minClusterSize : ℕ) (EDResultCutOff : ℕ)
    (readWithMoreHits : ℕ) (candidates : List ScoringCandidate)
    (mates0 mates1 : List ScoringMateCandidate)
    (acc : GenerateAcc) (anchor : MergeAnchor) : GenerateAcc :=
  let valid := anchor.clusterIdx ≠ -1 ∧ minClusterSize ≤ clusterCounterAry anchor.clusterIdx
  let clusterIdx : ℤ := if valid then anchor.clusterIdx else -1
  let astrayEDPenalty : ℕ := if valid then 0 else clusterEDCompensation
  let astrayProbabilityPenalty : ℚ := if valid then 1 else unclusteredPenalty
  let compensatedScore : ℕ := toU32 (anchor.pairScore + (astrayEDPenalty : ℤ))
  if compensatedScore ≤ EDResultCutOff then
    let compensatedProbability := anchor.matchProbability * astrayProbabilityPenalty
    let candidatePtr := candidates.getD anchor.candidateIdx defaultCandidate
    let matePtr := (if anchor.anchorSetPair = 0 then mates0 else mates1).getD
      anchor.mateIdx defaultMate
    let secondaryResult : PairedAlignmentResult :=
      { compensatedScore := (compensatedScore : ℤ)
        alignedAsPair := true
        dirMore := setPairDirectionSurrogate candidatePtr.whichSetPair readWithMoreHits
        dirFewer := setPairDirectionSurrogate candidatePtr.whichSetPair (1 - readWithMoreHits)
        fromAlignTogether := true
        locMore := matePtr.readWithMoreHitsGenomeLocation + matePtr.genomeOffset
        locFewer := candidatePtr.readWithFewerHitsGenomeLocation +
          candidatePtr.fewerEndGenomeLocationOffset
        mapq0 := 0
        mapq1 := 0
        scoreMore := matePtr.score
        scoreFewer := candidatePtr.fewerEndScore
        statusMore := MultipleHits
        statusFewer := MultipleHits
        probability := compensatedProbability
        clusterIdx := clusterIdx }
    let buffer := acc.buffer.set acc.nextResultIdx secondaryResult
    let nextResultIdx := acc.nextResultIdx + 1
    if compensatedScore ≤ toU32 acc.bestCompensatedScore ∧
        acc.probabilityOfBestPair ≤ compensatedProbability then
      { nextResultIdx := nextResultIdx
        bestResultIdx := (nextResultIdx : ℤ)
        bestCompensatedScore := intOfU32 compensatedScore
        probabilityOfBestPair := compensatedProbability
        buffer := buffer }
    else
      { acc with nextResultIdx := nextResultIdx, buffer := buffer }
  else acc

/-- Output of `align_phase_3_generate_results`: the best result record, the
secondary buffer after the swap-with-last removal, the secondary count, the
final `bestCompensatedScore` reference, and (for stating properties of the
indexing) the final `bestResultIdx`. -/
structure GenerateResultsOutput where
  bestResult : PairedAlignmentResult
  secondaryBuffer : List PairedAlignmentResult
  nSecondaryResults : ℤ
  bestCompensatedScoreOut : ℤ
  bestResultIdx : ℤ
deriving DecidableEq, Repr

/-- `TenXSingleAligner::align_phase_3_generate_results`
(TenXSingleAligner.cpp lines 1015-1133).  `bestResultIn` is the incoming
contents of the caller's best-result record (the fields the NotFound branch
does not assign keep their old values); the swap-with-last removal uses
`nextResultIdx`, which the source asserts equals `*nSecondaryResults`. -/
def align_phase_3_generate_results (clusterEDCompensation : ℕ) (unclusteredPenalty : ℚ)
    (clusterCounterAry : ℤ → ℕ) (readWithMoreHits : ℕ)
    (candidates : List ScoringCandidate) (mates0 mates1 : List ScoringMateCandidate)
    (anchors : List MergeAnchor) (minClusterSize : ℕ)
    (maxEditDistanceForSecondaryResults bestCompensatedScore : ℤ)
    (secondaryResults : List PairedAlignmentResult)
    (bestResultIn : PairedAlignmentResult) : GenerateResultsOutput :=
  let EDResultCutOff : ℕ := toU32 (bestCompensatedScore + maxEditDistanceForSecondaryResults)
  let final := anchors.foldl
    (generateStep clusterEDCompensation unclusteredPenalty clusterCounterAry minClusterSize
      EDResultCutOff readWithMoreHits candidates mates0 mates1)
    { nextResultIdx := 0, bestResultIdx := -1, bestCompensatedScore := bestCompensatedScore,
      probabilityOfBestPair := 0, buffer := secondaryResults }
  if final.bestResultIdx ≠ -1 then
    let bestResultPtr := final.buffer.getD final.bestResultIdx.toNat blankResult
    let buffer := final.buffer.set final.bestResultIdx.toNat
      (final.buffer.getD (final.nextResultIdx - 1) blankResult)
    { bestResult := bestResultPtr
      secondaryBuffer := buffer
      nSecondaryResults := (final.nextResultIdx : ℤ) - 1
      bestCompensatedScoreOut := final.bestCompensatedScore
      bestResultIdx := final.bestResultIdx }
  else
    { bestResult :=
        { bestResultIn with
          compensatedScore := -1
          clusterIdx := -1
          locMore := InvalidGenomeLocation
          locFewer := InvalidGenomeLocation
          mapq0 := 0
          mapq1 := 0
          scoreMore := -1
          scoreFewer := -1
          statusMore := NotFound
          statusFewer := NotFound }
      secondaryBuffer := final.buffer
      nSecondaryResults := (final.nextResultIdx : ℤ)
      bestCompensatedScoreOut := final.bestCompensatedScore
      bestResultIdx := -1 }

/-- Candidate pool for the generate-results demonstration: two scored clustered
candidates on set pair 0 at loci 1000 and 5000. -/
def genDemoCandidates : List ScoringCandidate :=
  [{ readWithFewerHitsGenomeLocation := 1000, whichSetPair := 0,
     scoringMateCandidateIndex := 0, seedOffset := 0, bestPossibleScore := 0,
     clusterIdx := 2, fewerEndScore := 2, fewerEndGenomeLocationOffset := 0,
     mergeAnchor := some 0 },
   { readWithFewerHitsGenomeLocation := 5000, whichSetPair := 0,
     scoringMateCandidateIndex := 0, seedOffset := 0, bestPossibleScore := 0,
     clusterIdx := 2, fewerEndScore := 3, fewerEndGenomeLocationOffset := 0,
     mergeAnchor := some 1 }]

/-- Mate pool for the generate-results demonstration. -/
def genDemoMates : List ScoringMateCandidate :=
  [{ readWithMoreHitsGenomeLocation := 1600, bestPossibleScore := 0, seedOffset := 0,
     score := 3, scoreLimit := 7, matchProbability := 1 / 2, genomeOffset := 0 }]

/-- Anchors for the generate-results demonstration: the first has the lowest
compensated score (5, probability 1/2), the second a worse one (6, probability
1/4); both belong to cluster 2, whose counter is at least the minimum cluster
size. -/
def genDemoAnchors : List MergeAnchor :=
  [{ locationForReadWithMoreHits := some 1600, locationForReadWithFewerHits := 1000,
     matchProbability := 1 / 2, pairScore := 5, clusterIdx := 2, candidateIdx := 0,
     mateIdx := 0, anchorSetPair := 0 },
   { locationForReadWithMoreHits := some 5600, locationForReadWithFewerHits := 5000,
     matchProbability := 1 / 4, pairScore := 6, clusterIdx := 2, candidateIdx := 1,
     mateIdx := 0, anchorSetPair := 0 }]

/-- C1: the best result returned by `align_phase_3_generate_results` is not the
tracked best anchor.  Both demo anchors qualify (cutoff 5 + 3); the first has
the strictly lowest compensated score 5 and is tracked as best, but the source
records `bestResultIdx = nextResultIdx` after `nextResultIdx++`, so the
returned best result is the record written for the second anchor (compensated
score 6), the swap-with-last removes that second record instead, and the true
best (score 5) is left in the returned secondary buffer.  The final
`bestCompensatedScore` reference (5) contradicts the returned record (6). -/
theorem generate_results_best_is_off_by_one :
    (align_phase_3_generate_results 3 (1 / 2) (fun _ => 2) 0 genDemoCandidates genDemoMates []
        genDemoAnchors 1 3 5 [blankResult, blankResult, blankResult]
        blankResult).bestResult.compensatedScore = 6 ∧
      (align_phase_3_generate_results 3 (1 / 2) (fun _ => 2) 0 genDemoCandidates genDemoMates []
        genDemoAnchors 1 3 5 [blankResult, blankResult, blankResult]
        blankResult).nSecondaryResults = 1 ∧
      ((align_phase_3_generate_results 3 (1 / 2) (fun _ => 2) 0 genDemoCandidates genDemoMates []
        genDemoAnchors 1 3 5 [blankResult, blankResult, blankResult]
        blankResult).secondaryBuffer.getD 0 blankResult).compensatedScore = 5 ∧
      (align_phase_3_generate_results 3 (1 / 2) (fun _ => 2) 0 genDemoCandidates genDemoMates []
        genDemoAnchors 1 3 5 [blankResult, blankResult, blankResult]
        blankResult).bestCompensatedScoreOut = 5 := by
  norm_num [align_phase_3_generate_results, generateStep, genDemoCandidates, genDemoMates,
    genDemoAnchors, toU32, intOfU32, blankResult, List.getD]

/-- The byte-indexed N table of the constructor: 1 for the byte of `N` (78),
0 otherwise. -/
def nTable (b : ℕ) : ℕ := if b = 78 then 1 else 0

/-- Combined count of N bases over the forward data of both reads, as
accumulated by the per-read loop of `align_phase_1`
(`countOfNs += nTable[read->getData()[i]]`). -/
def countOfNs (read0 read1 : SnapRead) : ℕ :=
  (read0.data.map nTable).sum + (read1.data.map nTable).sum

/-- Modelled from the spec: `Seed::DoesTextRepresentASeed` is outside the
provided sources; per the source comment at its call site ("It's got Ns in it,
so just skip it") and the spec invariant "only seeds containing no N are
used", a window of the read is a seed iff it contains no N byte. -/
def doesTextRepresentASeed (data : List ℕ) (off seedLen : ℕ) : Bool :=
  ((data.drop off).take seedLen).all (fun b => b ≠ 78)

/-- The inner loop of `align_phase_1` that skips already-used seed offsets
(TenXSingleAligner.cpp lines 309-314).  Fuel-driven; `read.len + 1` passes
always suffice. -/
def skipUsedSeeds (seedUsed : ℕ → Bool) (nPossibleSeeds : ℤ) : ℕ → ℤ → ℤ
  | 0, next => next
  | fuel + 1, next =>
    if next < nPossibleSeeds ∧ seedUsed next.toNat = true then
      skipUsedSeeds seedUsed nPossibleSeeds fuel (next + 1)
    else next

/-- Per-read state of the seed-sampling loop of `align_phase_1`. -/
structure SeedLoopState where
  nextSeedToTest : ℤ
  wrapCount : ℕ
  seedUsed : ℕ → Bool
  countOfHashTableLookups : ℕ
  popularSeedsSkipped : ℕ
  beginsDisjointFwd : Bool
  beginsDisjointRC : Bool
  totalHitsFwd : ℕ
  totalHitsRC : ℕ

/-- The per-read seed-sampling loop of `align_phase_1` (TenXSingleAligner.cpp
lines 295-384).  `lookupSeed` abstracts `GenomeIndex::lookupSeed` (it returns
the forward and RC hit counts for a seed text); `wrapFn` abstracts
`GetWrappedNextSeedToTest` from the external SeedSequencer.  The recording of
hit lists into the hit sets is elided (no claim reads them); the lookup and
popular-seed counters, the totals and the disjoint-set flags are tracked
faithfully.  Fuel-driven; the returned state is final when fuel suffices. -/
def seedLoop (read : SnapRead) (seedLen maxBigHits : ℕ) (maxSeeds : ℤ)
    (lookupSeed : List ℕ → ℕ × ℕ) (wrapFn : ℕ → ℕ → ℕ) :
    ℕ → SeedLoopState → SeedLoopState
  | 0, st => st
  | fuel + 1, st =>
    let nPossibleSeeds : ℤ := (read.len : ℤ) - (seedLen : ℤ) + 1
    if (st.countOfHashTableLookups : ℤ) < nPossibleSeeds ∧
        (st.countOfHashTableLookups : ℤ) < maxSeeds then
      if st.nextSeedToTest ≥ nPossibleSeeds ∧ seedLen ≤ st.wrapCount + 1 then
        { st with
          wrapCount := st.wrapCount + 1
          beginsDisjointFwd := true
          beginsDisjointRC := true }
      else
        let st :=
          if st.nextSeedToTest ≥ nPossibleSeeds then
            { st with
              wrapCount := st.wrapCount + 1
              beginsDisjointFwd := true
              beginsDisjointRC := true
              nextSeedToTest := ((wrapFn seedLen (st.wrapCount + 1) : ℕ) : ℤ) }
          else st
        let next := skipUsedSeeds st.seedUsed nPossibleSeeds (read.len + 1) st.nextSeedToTest
        let st := { st with nextSeedToTest := next }
        if next ≥ nPossibleSeeds then
          seedLoop read seedLen maxBigHits maxSeeds lookupSeed wrapFn fuel st
        else
          let st :=
            { st with seedUsed := fun i => if (i : ℤ) = next then true else st.seedUsed i }
          if ¬ (doesTextRepresentASeed read.data next.toNat seedLen = true) then
            seedLoop read seedLen maxBigHits maxSeeds lookupSeed wrapFn fuel
              { st with nextSeedToTest := next + 1 }
          else
            let hits := lookupSeed ((read.data.drop next.toNat).take seedLen)
            let st := { st with countOfHashTableLookups := st.countOfHashTableLookups + 1 }
            let st :=
              if hits.1 < maxBigHits then
                { st with
                  totalHitsFwd := st.totalHitsFwd + hits.1
                  beginsDisjointFwd := false }
              else { st with popularSeedsSkipped := st.popularSeedsSkipped + 1 }
            let st :=
              if hits.2 < maxBigHits then
                { st with
                  totalHitsRC := st.totalHitsRC + hits.2
                  beginsDisjointRC := false }
              else { st with popularSeedsSkipped := st.popularSeedsSkipped + 1 }
            let spacedAdvance : ℤ :=
              (nPossibleSeeds - next - 1) / (maxSeeds - st.countOfHashTableLookups + 1)
            let st :=
              if (maxSeeds - st.countOfHashTableLookups + 1) * (seedLen : ℤ) + next <
                  nPossibleSeeds then
                { st with nextSeedToTest := next + spacedAdvance }
              else { st with nextSeedToTest := next + (seedLen : ℤ) }
            seedLoop read seedLen maxBigHits maxSeeds lookupSeed wrapFn fuel st
    else st

/-- Initial per-read seed-loop state (offset 0, nothing used, disjoint-set
flags true). -/
def seedLoopInit : SeedLoopState :=
  { nextSeedToTest := 0, wrapCount := 0, seedUsed := fun _ => false,
    countOfHashTableLookups := 0, popularSeedsSkipped := 0,
    beginsDisjointFwd := true, beginsDisjointRC := true,
    totalHitsFwd := 0, totalHitsRC := 0 }

/-- Outcome of `align_phase_1`: `tooBigRead` models the `soft_exit` on a read
longer than `maxReadSize` (the process aborts, nothing is returned);
`earlyExit` is the early `return true` ("nothing to do"); `proceed` is the
final `return false`. -/
inductive Phase1Outcome where
  | tooBigRead
  | earlyExit
  | proceed
deriving DecidableEq, Repr

/-- Result of `align_phase_1`: the outcome plus the per-read hash-table lookup
and popular-seed counters. -/
structure Phase1Result where
  outcome : Phase1Outcome
  countOfHashTableLookups0 : ℕ
  countOfHashTableLookups1 : ℕ
  popularSeedsSkipped0 : ℕ
  popularSeedsSkipped1 : ℕ
deriving DecidableEq, Repr

/-- `TenXSingleAligner::align_phase_1` (TenXSingleAligner.cpp lines 191-398).
Order of the source checks: the too-short test (line 226) precedes everything;
the per-read loop then checks `readLen > maxReadSize` (`soft_exit`) for read 0
and read 1 in order while accumulating `countOfNs` over the forward data of
both reads; the `countOfNs > maxK` test (line 266) runs after that loop; only
then does the seed-sampling loop issue hash-table lookups.  `maxSeeds` is the
per-call seed budget the source derives from `numSeedsFromCommandLine` or
`seedCoverage`. -/
def align_phase_1 (read0 read1 : SnapRead) (seedLen maxK maxReadSize maxBigHits : ℕ)
    (maxSeeds : ℤ) (lookupSeed : List ℕ → ℕ × ℕ) (wrapFn : ℕ → ℕ → ℕ) : Phase1Result :=
  if read0.len < seedLen ∨ read1.len < seedLen then
    { outcome := Phase1Outcome.earlyExit, countOfHashTableLookups0 := 0,
      countOfHashTableLookups1 := 0, popularSeedsSkipped0 := 0, popularSeedsSkipped1 := 0 }
  else if maxReadSize < read0.len then
    { outcome := Phase1Outcome.tooBigRead, countOfHashTableLookups0 := 0,
      countOfHashTableLookups1 := 0, popularSeedsSkipped0 := 0, popularSeedsSkipped1 := 0 }
  else if maxReadSize < read1.len then
    { outcome := Phase1Outcome.tooBigRead, countOfHashTableLookups0 := 0,
      countOfHashTableLookups1 := 0, popularSeedsSkipped0 := 0, popularSeedsSkipped1 := 0 }
  else if maxK < countOfNs read0 read1 then
    { outcome := Phase1Outcome.earlyExit, countOfHashTableLookups0 := 0,
      countOfHashTableLookups1 := 0, popularSeedsSkipped0 := 0, popularSeedsSkipped1 := 0 }
  else
    let st0 := seedLoop read0 seedLen maxBigHits maxSeeds lookupSeed wrapFn
      ((read0.len + 2) * (seedLen + 2)) seedLoopInit
    let st1 := seedLoop read1 seedLen maxBigHits maxSeeds lookupSeed wrapFn
      ((read1.len + 2) * (seedLen + 2)) seedLoopInit
    { outcome := Phase1Outcome.proceed
      countOfHashTableLookups0 := st0.countOfHashTableLookups
      countOfHashTableLookups1 := st1.countOfHashTableLookups
      popularSeedsSkipped0 := st0.popularSeedsSkipped
      popularSeedsSkipped1 := st1.popularSeedsSkipped }

/-- C6: `align_phase_1` takes its "nothing to do" early exit exactly when one
of the reads is shorter than the seed length or the combined N count of both
forward reads exceeds `maxK`; in both early-exit cases no hash-table seed
lookup has been performed.  The hypothesis that neither read exceeds
`maxReadSize` excludes the separate fatal `soft_exit` path (spec section 7:
input-too-large aborts the process). -/
theorem align_phase_1_early_exit_iff (read0 read1 : SnapRead)
    (seedLen maxK maxReadSize maxBigHits : ℕ) (maxSeeds : ℤ)
    (lookupSeed : List ℕ → ℕ × ℕ) (wrapFn : ℕ → ℕ → ℕ)
    (h0 : read0.len ≤ maxReadSize) (h1 : read1.len ≤ maxReadSize) :
    ((align_phase_1 read0 read1 seedLen maxK maxReadSize maxBigHits maxSeeds lookupSeed
        wrapFn).outcome = Phase1Outcome.earlyExit ↔
      (read0.len < seedLen ∨ read1.len < seedLen ∨ maxK < countOfNs read0 read1)) ∧
    ((align_phase_1 read0 read1 seedLen maxK maxReadSize maxBigHits maxSeeds lookupSeed
        wrapFn).outcome = Phase1Outcome.earlyExit →
      (align_phase_1 read0 read1 seedLen maxK maxReadSize maxBigHits maxSeeds lookupSeed
          wrapFn).countOfHashTableLookups0 = 0 ∧
        (align_phase_1 read0 read1 seedLen maxK maxReadSize maxBigHits maxSeeds lookupSeed
          wrapFn).countOfHashTableLookups1 = 0) := by
  simp only [align_phase_1]
  by_cases hshort : read0.len < seedLen ∨ read1.len < seedLen
  · rw [if_pos hshort]
    exact ⟨⟨fun _ => hshort.elim Or.inl (fun h => Or.inr (Or.inl h)),
      fun _ => rfl⟩, fun _ => ⟨rfl, rfl⟩⟩
  · rw [if_neg hshort, if_neg (by omega), if_neg (by omega)]
    by_cases hN : maxK < countOfNs read0 read1
    · rw [if_pos hN]
      exact ⟨⟨fun _ => Or.inr (Or.inr hN), fun _ => rfl⟩, fun _ => ⟨rfl, rfl⟩⟩
    · rw [if_neg hN]
      refine ⟨⟨fun hco => absurd hco (by simp), fun hco => ?_⟩, fun hco => absurd hco (by simp)⟩
      rcases hco with h | h | h
      · exact absurd (Or.inl h) hshort
      · exact absurd (Or.inr h) hshort
      · exact absurd h hN

/-- Closed witness for the phase-1 early-exit theorem: two 4-byte reads with
seed length 3; read 0 carries five Ns while `maxK = 4`, so the combined N
count forces the early exit with zero lookups. -/
theorem align_phase_1_early_exit_iff_witness :
    (align_phase_1 { data := [78, 78, 78, 78, 78], quality := [30, 30, 30, 30, 30] }
        { data := [65, 67, 71, 84], quality := [30, 30, 30, 30] } 3 4 100 16 4
        (fun _ => (1, 1)) (fun _ w => w)).outcome = Phase1Outcome.earlyExit ∧
      (align_phase_1 { data := [78, 78, 78, 78, 78], quality := [30, 30, 30, 30, 30] }
        { data := [65, 67, 71, 84], quality := [30, 30, 30, 30] } 3 4 100 16 4
        (fun _ => (1, 1)) (fun _ w => w)).countOfHashTableLookups0 = 0 := by
  have h := align_phase_1_early_exit_iff
    { data := [78, 78, 78, 78, 78], quality := [30, 30, 30, 30, 30] }
    { data := [65, 67, 71, 84], quality := [30, 30, 30, 30] } 3 4 100 16 4
    (fun _ => (1, 1)) (fun _ w => w) (by decide) (by decide)
  have hout := h.1.mpr (by decide)
  exact ⟨hout, (h.2 hout).1⟩

/-- Configuration consumed by `align_phase_3_score`. -/
structure ScoreParams where
  maxK : ℕ
  extraSearchDepth : ℕ
  clusterEDCompensation : ℕ
  minSpacing : ℕ
  maxSpacing : ℕ
  noUkkonen : Bool
deriving DecidableEq, Repr

/-- One query to `scoreLocation` (which wraps the external Landau-Vishkin
edit-distance oracle): which read, direction, genome location, seed offset and
score limit. -/
structure ScoreQuery where
  whichRead : ℕ
  direction : ℕ
  genomeLocation : ℤ
  seedOffset : ℕ
  scoreLimit : ℕ
deriving DecidableEq, Repr

/-- Answer of `scoreLocation`: the score (`-1` when the limit is exceeded or
the reference data is unavailable), the match probability, and the genome
offset correction. -/
structure ScoreAnswer where
  score : ℤ
  matchProbability : ℚ
  genomeLocationOffset : ℤ
deriving DecidableEq, Repr

/-- The scoring oracle; `scoreLocation` and the edit-distance primitives it
calls are external collaborators per the spec (section 1 and section 4.6). -/
def ScoreOracle : Type := ScoreQuery → ScoreAnswer

/-- The spec section 4.6 contract of the scoring oracle: the returned score is
`-1` or lies in `{0, ..., limit}` (the source also asserts
`*score <= scoreLimit`). -/
def OracleOK (oracle : ScoreOracle) : Prop :=
  ∀ q, (oracle q).score = -1 ∨ (0 ≤ (oracle q).score ∧ (oracle q).score ≤ (q.scoreLimit : ℤ))

/-- `setPairDirection` as used by `align_phase_3_score`
(TenXSingleAligner.cpp line 717): `{ {FORWARD, RC}, {RC, FORWARD} }`,
indexed by set pair and read number. -/
def setPairDirectionScore (sp r : ℕ) : ℕ :=
  if sp = 0 then (if r = 0 then 0 else 1) else (if r = 0 then 1 else 0)

/-- Placeholder anchor used for reads of never-written pool slots. -/
def defaultAnchor : MergeAnchor :=
  { locationForReadWithMoreHits := none, locationForReadWithFewerHits := 0,
    matchProbability := 0, pairScore := 0, clusterIdx := -1, candidateIdx := 0,
    mateIdx := 0, anchorSetPair := 0 }

/-- State mutated by `align_phase_3_score`: the candidate pool, the two mate
pools (one per set pair), the weight-list array (entry `k` holds the candidate
pool indices whose list head is `scoringCandidates[k]`, in list order), the
merge-anchor pool, the `bestCompensatedScore` reference and the `scoreLimit`
local.  `mateScoreEvents` and `pairEvents` are ghost logs: the (candidate
locus, mate locus) pair of every mate `scoreLocation` call and of every scored
pair that reaches the merge-anchor logic. -/
structure Phase3State where
  candidates : List ScoringCandidate
  mates0 : List ScoringMateCandidate
  mates1 : List ScoringMateCandidate
  scoringCandidateLists : List (List ℕ)
  mergeAnchorPool : List MergeAnchor
  bestCompensatedScore : ℤ
  scoreLimit : ℕ
  mateScoreEvents : List (ℤ × ℤ)
  pairEvents : List (ℤ × ℤ)
deriving DecidableEq, Repr

/-- The mate pool of a set pair (the source array
`scoringMateCandidates[whichSetPair]`). -/
def Phase3State.mates (s : Phase3State) (sp : ℕ) : List ScoringMateCandidate :=
  if sp = 0 then s.mates0 else s.mates1

/-- Write one entry of the mate pool of a set pair. -/
def Phase3State.setMate (s : Phase3State) (sp idx : ℕ) (m : ScoringMateCandidate) :
    Phase3State :=
  if sp = 0 then { s with mates0 := s.mates0.set idx m }
  else { s with mates1 := s.mates1.set idx m }

/-- The downward merge-candidate scan of `align_phase_3_score`
(TenXSingleAligner.cpp lines 818-829): starting just below the candidate,
keep walking while the neighbour is in the pool and (is of the other set pair,
or lies within 50 bases of the candidate's adjusted location); adopt the first
same-set-pair neighbour that already has an anchor.  The argument is the
number of pool entries below the current candidate. -/
def mergeScanDown (candidates : List ScoringCandidate) (sp : ℕ) (target : ℤ) :
    ℕ → Option ℕ
  | 0 => none
  | idx + 1 =>
    let mc := candidates.getD idx defaultCandidate
    if mc.whichSetPair ≠ sp ∨
        genomeLocationIsWithin mc.readWithFewerHitsGenomeLocation target 50 = true then
      if mc.whichSetPair = sp ∧ mc.mergeAnchor ≠ none then mc.mergeAnchor
      else mergeScanDown candidates sp target idx
    else none

/-- The upward merge-candidate scan (TenXSingleAligner.cpp lines 831-844),
from the entry just above the candidate to the end of the used pool.
Fuel-driven (the pool length always suffices). -/
def mergeScanUp (candidates : List ScoringCandidate) (sp : ℕ) (target : ℤ) :
    ℕ → ℕ → Option ℕ
  | 0, _ => none
  | fuel + 1, idx =>
    if candidates.length ≤ idx then none
    else
      let mc := candidates.getD idx defaultCandidate
      if mc.whichSetPair ≠ sp ∨
          genomeLocationIsWithin mc.readWithFewerHitsGenomeLocation target 50 = true then
        if mc.whichSetPair = sp ∧ mc.mergeAnchor ≠ none then mc.mergeAnchor
        else mergeScanUp candidates sp target fuel (idx + 1)
      else none

/-- One pass of the mate loop of `align_phase_3_score` (TenXSingleAligner.cpp
lines 774-894, the body of the `for (;;)`): the spacing/lower-bound gate, the
conditional (re)scoring of the mate, pair formation, merge-anchor adoption or
creation, `checkMerge`, and the best-score / Ukkonen update.
`compensatedScoreLimit`, `astrayEDPenalty` and `fewerEndMatchProbability` are
the per-candidate locals of the source. -/
def updateBestFromPair (p : ScoreParams) (inRevise : Bool) (anchorUpdate : Bool)
    (compensatedScore : ℕ) (s : Phase3State) : Phase3State :=
  if (¬ inRevise) ∧ anchorUpdate = true ∧
      compensatedScore ≤ (p.maxK + p.clusterEDCompensation) % 2 ^ 32 ∧
      compensatedScore < toU32 s.bestCompensatedScore then
    { s with
      bestCompensatedScore := intOfU32 compensatedScore
      scoreLimit := if ¬ p.noUkkonen then
          toU32 (intOfU32 compensatedScore + (p.extraSearchDepth : ℤ))
        else s.scoreLimit }
  else s

def processScoredPair (p : ScoreParams) (inRevise : Bool) (candIdx mateIndex : ℕ)
    (astrayEDPenalty : ℕ) (fewerEndMatchProbability : ℚ)
    (mate2 : ScoringMateCandidate) (s2 : Phase3State) : Phase3State :=
  let candidate := s2.candidates.getD candIdx defaultCandidate
  let pairProbability := mate2.matchProbability * fewerEndMatchProbability
  let pairScore : ℕ := toU32 (mate2.score + candidate.fewerEndScore)
  let compensatedScore : ℕ := (pairScore + astrayEDPenalty) % 2 ^ 32
  let target := candidate.readWithFewerHitsGenomeLocation +
    candidate.fewerEndGenomeLocationOffset
  let s3 :=
    { s2 with
      pairEvents := s2.pairEvents ++
        [(candidate.readWithFewerHitsGenomeLocation,
          mate2.readWithMoreHitsGenomeLocation)] }
  let adopted : Option ℕ :=
    match candidate.mergeAnchor with
    | some ai => some ai
    | none =>
      match mergeScanDown s3.candidates candidate.whichSetPair target candIdx with
      | some ai => some ai
      | none => mergeScanUp s3.candidates candidate.whichSetPair target
          s3.candidates.length (candIdx + 1)
  match adopted with
  | some ai =>
    let s4 := { s3 with
      candidates := s3.candidates.set candIdx { candidate with mergeAnchor := some ai } }
    let anchor := s4.mergeAnchorPool.getD ai defaultAnchor
    let merged := anchor.checkMerge
      (mate2.readWithMoreHitsGenomeLocation + mate2.genomeOffset) target
      pairProbability (intOfU32 pairScore) candidate.clusterIdx candIdx mateIndex
      candidate.whichSetPair
    let s5 := { s4 with mergeAnchorPool := s4.mergeAnchorPool.set ai merged.1 }
    updateBestFromPair p inRevise merged.2 compensatedScore s5
  | none =>
    let newAnchor : MergeAnchor :=
      { locationForReadWithMoreHits :=
          some (mate2.readWithMoreHitsGenomeLocation + mate2.genomeOffset)
        locationForReadWithFewerHits := target
        matchProbability := pairProbability
        pairScore := intOfU32 pairScore
        clusterIdx := candidate.clusterIdx
        candidateIdx := candIdx
        mateIdx := mateIndex
        anchorSetPair := candidate.whichSetPair }
    let s4 := { s3 with
      mergeAnchorPool := s3.mergeAnchorPool ++ [newAnchor]
      candidates := s3.candidates.set candIdx
        { candidate with mergeAnchor := some s3.mergeAnchorPool.length } }
    updateBestFromPair p inRevise true compensatedScore s4

def maybeRescore (oracle : ScoreOracle) (readWithMoreHits candIdx mateIndex : ℕ)
    (mateLimit : ℕ) (s : Phase3State) : ScoringMateCandidate × Phase3State :=
  let candidate := s.candidates.getD candIdx defaultCandidate
  let mate := (s.mates candidate.whichSetPair).getD mateIndex defaultMate
  if mate.score = -2 ∨ (mate.score = -1 ∧ mate.scoreLimit < mateLimit) then
    let ans := oracle
      { whichRead := readWithMoreHits
        direction := setPairDirectionScore candidate.whichSetPair readWithMoreHits
        genomeLocation := mate.readWithMoreHitsGenomeLocation
        seedOffset := mate.seedOffset
        scoreLimit := mateLimit }
    let mate2 : ScoringMateCandidate :=
      { mate with
        score := ans.score
        matchProbability := ans.matchProbability
        genomeOffset := ans.genomeLocationOffset
        scoreLimit := mateLimit }
    (mate2,
      { s.setMate candidate.whichSetPair mateIndex mate2 with
        mateScoreEvents := s.mateScoreEvents ++
          [(candidate.readWithFewerHitsGenomeLocation,
            mate.readWithMoreHitsGenomeLocation)] })
  else (mate, s)

def mateStep (p : ScoreParams) (oracle : ScoreOracle)
    (readWithFewerHits readWithMoreHits : ℕ) (inRevise : Bool) (candIdx : ℕ)
    (compensatedScoreLimit astrayEDPenalty : ℕ) (fewerEndMatchProbability : ℚ)
    (mateIndex : ℕ) (s : Phase3State) : Phase3State :=
  let candidate := s.candidates.getD candIdx defaultCandidate
  let mate := (s.mates candidate.whichSetPair).getD mateIndex defaultMate
  if ¬ (genomeLocationIsWithin mate.readWithMoreHitsGenomeLocation
        candidate.readWithFewerHitsGenomeLocation p.minSpacing = true) ∧
      mate.bestPossibleScore ≤ usub32 s.scoreLimit candidate.fewerEndScore.toNat then
    let mateLimit := usub32 compensatedScoreLimit candidate.fewerEndScore.toNat
    let r := maybeRescore oracle readWithMoreHits candIdx mateIndex mateLimit s
    if r.1.score ≠ -1 then
      processScoredPair p inRevise candIdx mateIndex astrayEDPenalty
        fewerEndMatchProbability r.1 r.2
    else r.2
  else s

/-- The mate loop of `align_phase_3_score`: run `mateStep` at the current mate
index, then stop if the index is 0 or the next (higher-locus) mate is no
longer within `maxSpacing` of the candidate (TenXSingleAligner.cpp lines
886-893); otherwise continue at the next lower index. -/
def mateLoop (p : ScoreParams) (oracle : ScoreOracle)
    (readWithFewerHits readWithMoreHits : ℕ) (inRevise : Bool) (candIdx : ℕ)
    (compensatedScoreLimit astrayEDPenalty : ℕ) (fewerEndMatchProbability : ℚ) :
    ℕ → Phase3State → Phase3State
  | 0, s => mateStep p oracle readWithFewerHits readWithMoreHits inRevise candIdx
      compensatedScoreLimit astrayEDPenalty fewerEndMatchProbability 0 s
  | m + 1, s =>
    let s1 := mateStep p oracle readWithFewerHits readWithMoreHits inRevise candIdx
      compensatedScoreLimit astrayEDPenalty fewerEndMatchProbability (m + 1) s
    let candidate := s1.candidates.getD candIdx defaultCandidate
    let nextMate := (s1.mates candidate.whichSetPair).getD m defaultMate
    if genomeLocationIsWithin nextMate.readWithMoreHitsGenomeLocation
        candidate.readWithFewerHitsGenomeLocation p.maxSpacing = true then
      mateLoop p oracle readWithFewerHits readWithMoreHits inRevise candIdx
        compensatedScoreLimit astrayEDPenalty fewerEndMatchProbability m s1
    else s1

/-- Processing of one popped candidate by `align_phase_3_score`
(TenXSingleAligner.cpp lines 744-895): compute the astray penalty and the
compensated score limit, score the fewer-hits end, and if the oracle succeeded
walk the mates downward from `scoringMateCandidateIndex`. -/
def scoreCandidate (p : ScoreParams) (oracle : ScoreOracle)
    (readWithFewerHits readWithMoreHits : ℕ) (inRevise : Bool) (candIdx : ℕ)
    (s : Phase3State) : Phase3State :=
  let candidate := s.candidates.getD candIdx defaultCandidate
  let astrayEDPenalty : ℕ := if candidate.clusterIdx = -1 then p.clusterEDCompensation else 0
  let compensatedScoreLimit : ℕ := usub32 s.scoreLimit astrayEDPenalty
  let ans := oracle
    { whichRead := readWithFewerHits
      direction := setPairDirectionScore candidate.whichSetPair readWithFewerHits
      genomeLocation := candidate.readWithFewerHitsGenomeLocation
      seedOffset := candidate.seedOffset
      scoreLimit := compensatedScoreLimit }
  let candidate2 :=
    { candidate with
      fewerEndScore := ans.score
      fewerEndGenomeLocationOffset := ans.genomeLocationOffset }
  let s2 := { s with candidates := s.candidates.set candIdx candidate2 }
  if candidate2.fewerEndScore ≠ -1 then
    mateLoop p oracle readWithFewerHits readWithMoreHits inRevise candIdx
      compensatedScoreLimit astrayEDPenalty ans.matchProbability
      candidate2.scoringMateCandidateIndex s2
  else s2

/-- The weight-list loop of `align_phase_3_score` (TenXSingleAligner.cpp lines
732-897): while the current list index is within both
`maxUsedBestPossibleScoreList` and the (possibly tightened) `scoreLimit`,
either advance to the next list when the current one is empty, or process its
head candidate and then unlink it (line 896).  Fuel-driven: every pass either
consumes a candidate or advances the index, so any fuel of at least
`total candidates + maxUsedBestPossibleScoreList + 2` reaches the fixpoint. -/
def phase3Loop (p : ScoreParams) (oracle : ScoreOracle)
    (readWithFewerHits readWithMoreHits : ℕ) (inRevise : Bool)
    (maxUsedBestPossibleScoreList : ℕ) :
    ℕ → ℕ → Phase3State → Phase3State
  | 0, _, s => s
  | fuel + 1, currentBestPossibleScoreList, s =>
    if currentBestPossibleScoreList ≤ maxUsedBestPossibleScoreList ∧
        currentBestPossibleScoreList ≤ s.scoreLimit then
      match s.scoringCandidateLists.getD currentBestPossibleScoreList [] with
      | [] => phase3Loop p oracle readWithFewerHits readWithMoreHits inRevise
          maxUsedBestPossibleScoreList fuel (currentBestPossibleScoreList + 1) s
      | candIdx :: rest =>
        let s1 := scoreCandidate p oracle readWithFewerHits readWithMoreHits inRevise
          candIdx s
        let s2 := { s1 with
          scoringCandidateLists :=
            s1.scoringCandidateLists.set currentBestPossibleScoreList rest }
        phase3Loop p oracle readWithFewerHits readWithMoreHits inRevise
          maxUsedBestPossibleScoreList fuel currentBestPossibleScoreList s2
    else s

/-- `TenXSingleAligner::align_phase_3_score` (TenXSingleAligner.cpp lines
705-898).  Sets the initial score limit (`bestCompensatedScore +
extraSearchDepth + clusterEDCompensation` in revise mode, else `maxK +
extraSearchDepth + clusterEDCompensation`) and runs the weight-list loop from
index 0.  The ghost event logs start empty. -/
def align_phase_3_score (p : ScoreParams) (oracle : ScoreOracle)
    (readWithFewerHits readWithMoreHits : ℕ) (maxUsedBestPossibleScoreList : ℕ)
    (inRevise : Bool) (fuel : ℕ) (s : Phase3State) : Phase3State :=
  let scoreLimit : ℕ :=
    if inRevise then
      toU32 (s.bestCompensatedScore + (p.extraSearchDepth : ℤ) + (p.clusterEDCompensation : ℤ))
    else (p.maxK + p.extraSearchDepth + p.clusterEDCompensation) % 2 ^ 32
  phase3Loop p oracle readWithFewerHits readWithMoreHits inRevise
    maxUsedBestPossibleScoreList fuel 0
    { s with scoreLimit := scoreLimit, mateScoreEvents := [], pairEvents := [] }

theorem getD_set {α : Type _} (l : List α) (i j : ℕ) (a d : α) :
    (l.set i a).getD j d = if j = i ∧ i < l.length then a else l.getD j d := by
  induction l generalizing i j with
  | nil => simp
  | cons x t ih =>
    cases i with
    | zero =>
      cases j with
      | zero => simp
      | succ j => simp
    | succ i =>
      cases j with
      | zero => simp
      | succ j =>
        simp only [List.set_cons_succ, List.getD_cons_succ, ih, List.length_cons]
        by_cases h : j = i ∧ i < t.length
        · rw [if_pos h, if_pos ⟨by omega, by omega⟩]
        · rw [if_neg h, if_neg (by omega)]

/-- The shape of a candidate: the fields of `ScoringCandidate` that
`align_phase_3_score` never writes (locus, set pair, highest-mate index,
cluster identifier). -/
def candShape (c : ScoringCandidate) : ℤ × ℕ × ℕ × ℤ :=
  (c.readWithFewerHitsGenomeLocation, c.whichSetPair, c.scoringMateCandidateIndex, c.clusterIdx)

/-- The genome locus of mate `j` of set pair `sp`. -/
def mateLocAt (s : Phase3State) (sp j : ℕ) : ℤ :=
  ((s.mates sp).getD j defaultMate).readWithMoreHitsGenomeLocation

theorem candShape_getD_set (l : List ScoringCandidate) (i j : ℕ) (c : ScoringCandidate)
    (hc : candShape c = candShape (l.getD i defaultCandidate)) :
    candShape ((l.set i c).getD j defaultCandidate) =
      candShape (l.getD j defaultCandidate) := by
  rw [getD_set]
  by_cases h : j = i ∧ i < l.length
  · rw [if_pos h, hc, h.1]
  · rw [if_neg h]

theorem fewerEndScore_getD_set (l : List ScoringCandidate) (i j : ℕ) (c : ScoringCandidate)
    (hc : c.fewerEndScore = (l.getD i defaultCandidate).fewerEndScore) :
    ((l.set i c).getD j defaultCandidate).fewerEndScore =
      (l.getD j defaultCandidate).fewerEndScore := by
  rw [getD_set]
  by_cases h : j = i ∧ i < l.length
  · rw [if_pos h, hc, h.1]
  · rw [if_neg h]

theorem Phase3State.setMate_candidates (s : Phase3State) (sp idx : ℕ)
    (m : ScoringMateCandidate) : (s.setMate sp idx m).candidates = s.candidates := by
  simp only [Phase3State.setMate]
  split <;> rfl

theorem Phase3State.setMate_lists (s : Phase3State) (sp idx : ℕ)
    (m : ScoringMateCandidate) :
    (s.setMate sp idx m).scoringCandidateLists = s.scoringCandidateLists := by
  simp only [Phase3State.setMate]
  split <;> rfl

theorem Phase3State.setMate_scoreLimit (s : Phase3State) (sp idx : ℕ)
    (m : ScoringMateCandidate) : (s.setMate sp idx m).scoreLimit = s.scoreLimit := by
  simp only [Phase3State.setMate]
  split <;> rfl

theorem Phase3State.setMate_events (s : Phase3State) (sp idx : ℕ)
    (m : ScoringMateCandidate) :
    (s.setMate sp idx m).mateScoreEvents = s.mateScoreEvents ∧
      (s.setMate sp idx m).pairEvents = s.pairEvents := by
  simp only [Phase3State.setMate]
  split <;> exact ⟨rfl, rfl⟩

theorem Phase3State.mates_setMate (s : Phase3State) (sp idx : ℕ)
    (m : ScoringMateCandidate) (sp' : ℕ) :
    (s.setMate sp idx m).mates sp' = (s.mates sp').set idx m ∨
      (s.setMate sp idx m).mates sp' = s.mates sp' := by
  simp only [Phase3State.setMate, Phase3State.mates]
  by_cases h : sp = 0 <;> by_cases h' : sp' = 0 <;> simp [h, h']

theorem mateLoc_getD_set (l : List ScoringMateCandidate) (i j : ℕ)
    (m : ScoringMateCandidate)
    (hm : m.readWithMoreHitsGenomeLocation =
      (l.getD i defaultMate).readWithMoreHitsGenomeLocation) :
    ((l.set i m).getD j defaultMate).readWithMoreHitsGenomeLocation =
      (l.getD j defaultMate).readWithMoreHitsGenomeLocation := by
  rw [getD_set]
  by_cases h : j = i ∧ i < l.length
  · rw [if_pos h, hm, h.1]
  · rw [if_neg h]

theorem mateLocAt_setMate (s : Phase3State) (sp idx : ℕ) (m : ScoringMateCandidate)
    (hm : m.readWithMoreHitsGenomeLocation = mateLocAt s sp idx) :
    ∀ sp' j, mateLocAt (s.setMate sp idx m) sp' j = mateLocAt s sp' j := by
  intro sp' j
  by_cases h0 : sp = 0 <;> by_cases h1 : sp' = 0 <;>
    simp only [mateLocAt, Phase3State.setMate, Phase3State.mates, h0, h1, if_true,
      if_false, ite_true, ite_false] at hm ⊢
  · exact mateLoc_getD_set _ _ _ _ hm
  · exact mateLoc_getD_set _ _ _ _ hm

theorem mateScore_setMate_le (s : Phase3State) (sp idx : ℕ) (m : ScoringMateCandidate)
    (M : ℕ) (hm : m.score ≤ (M : ℤ))
    (hall : ∀ sp' j, (((s.mates sp').getD j defaultMate)).score ≤ (M : ℤ)) :
    ∀ sp' j, (((s.setMate sp idx m).mates sp').getD j defaultMate).score ≤ (M : ℤ) := by
  intro sp' j
  rcases Phase3State.mates_setMate s sp idx m sp' with h | h
  · rw [h, getD_set]
    by_cases hj : j = idx ∧ idx < (s.mates sp').length
    · rw [if_pos hj]; exact hm
    · rw [if_neg hj]; exact hall sp' j
  · rw [h]; exact hall sp' j

theorem updateBestFromPair_candidates (p : ScoreParams) (r u : Bool) (c : ℕ)
    (s : Phase3State) : (updateBestFromPair p r u c s).candidates = s.candidates := by
  simp only [updateBestFromPair]
  split <;> rfl

theorem updateBestFromPair_mates0 (p : ScoreParams) (r u : Bool) (c : ℕ)
    (s : Phase3State) : (updateBestFromPair p r u c s).mates0 = s.mates0 := by
  simp only [updateBestFromPair]
  split <;> rfl

theorem updateBestFromPair_mates1 (p : ScoreParams) (r u : Bool) (c : ℕ)
    (s : Phase3State) : (updateBestFromPair p r u c s).mates1 = s.mates1 := by
  simp only [updateBestFromPair]
  split <;> rfl

theorem updateBestFromPair_mates (p : ScoreParams) (r u : Bool) (c : ℕ)
    (s : Phase3State) : ∀ sp, (updateBestFromPair p r u c s).mates sp = s.mates sp := by
  intro sp
  simp only [Phase3State.mates, updateBestFromPair_mates0, updateBestFromPair_mates1]

theorem updateBestFromPair_lists (p : ScoreParams) (r u : Bool) (c : ℕ)
    (s : Phase3State) :
    (updateBestFromPair p r u c s).scoringCandidateLists = s.scoringCandidateLists := by
  simp only [updateBestFromPair]
  split <;> rfl

theorem updateBestFromPair_events (p : ScoreParams) (r u : Bool) (c : ℕ)
    (s : Phase3State) :
    (updateBestFromPair p r u c s).mateScoreEvents = s.mateScoreEvents ∧
      (updateBestFromPair p r u c s).pairEvents = s.pairEvents := by
  simp only [updateBestFromPair]
  split <;> exact ⟨rfl, rfl⟩

theorem updateBestFromPair_scoreLimit_le (p : ScoreParams) (r u : Bool) (c : ℕ)
    (s : Phase3State)
    (hM : p.maxK + p.extraSearchDepth + p.clusterEDCompensation < 2 ^ 31)
    (hs : s.scoreLimit ≤ p.maxK + p.extraSearchDepth + p.clusterEDCompensation) :
    (updateBestFromPair p r u c s).scoreLimit ≤
      p.maxK + p.extraSearchDepth + p.clusterEDCompensation := by
  simp only [updateBestFromPair]
  split
  · next h =>
    have hc : c ≤ p.maxK + p.clusterEDCompensation := by
      have h1 := h.2.2.1
      rwa [Nat.mod_eq_of_lt (by omega)] at h1
    simp only
    split
    · have hint : intOfU32 c = (c : ℤ) := by
        simp only [intOfU32]
        rw [if_pos (by exact_mod_cast (by omega : c < 2 ^ 31))]
      rw [hint]
      have : ((c : ℤ) + (p.extraSearchDepth : ℤ)) = ((c + p.extraSearchDepth : ℕ) : ℤ) := by
        push_cast; ring
      rw [this, toU32_of_small _ (by positivity) (by exact_mod_cast (by omega : c + p.extraSearchDepth < 2 ^ 32))]
      simp only [Int.toNat_natCast]
      omega
    · exact hs
  · exact hs

theorem processScoredPair_char (p : ScoreParams) (inRevise : Bool)
    (candIdx mateIndex astrayEDPenalty : ℕ) (fewerEndMatchProbability : ℚ)
    (mate2 : ScoringMateCandidate) (s2 : Phase3State) :
    (∃ x, (processScoredPair p inRevise candIdx mateIndex astrayEDPenalty
        fewerEndMatchProbability mate2 s2).candidates =
      s2.candidates.set candIdx
        { s2.candidates.getD candIdx defaultCandidate with mergeAnchor := x }) ∧
    (processScoredPair p inRevise candIdx mateIndex astrayEDPenalty
      fewerEndMatchProbability mate2 s2).mates0 = s2.mates0 ∧
    (processScoredPair p inRevise candIdx mateIndex astrayEDPenalty
      fewerEndMatchProbability mate2 s2).mates1 = s2.mates1 ∧
    (processScoredPair p inRevise candIdx mateIndex astrayEDPenalty
      fewerEndMatchProbability mate2 s2).scoringCandidateLists =
        s2.scoringCandidateLists ∧
    (processScoredPair p inRevise candIdx mateIndex astrayEDPenalty
      fewerEndMatchProbability mate2 s2).mateScoreEvents = s2.mateScoreEvents ∧
    (processScoredPair p inRevise candIdx mateIndex astrayEDPenalty
      fewerEndMatchProbability mate2 s2).pairEvents = s2.pairEvents ++
      [((s2.candidates.getD candIdx defaultCandidate).readWithFewerHitsGenomeLocation,
        mate2.readWithMoreHitsGenomeLocation)] := by
  simp only [processScoredPair]
  split
  · next ai hai =>
    refine ⟨⟨some ai, ?_⟩, ?_, ?_, ?_, ?_, ?_⟩ <;>
      simp [updateBestFromPair_candidates, updateBestFromPair_mates0,
        updateBestFromPair_mates1, updateBestFromPair_lists,
        (updateBestFromPair_events _ _ _ _ _).1, (updateBestFromPair_events _ _ _ _ _).2]
  · next hai =>
    refine ⟨⟨some s2.mergeAnchorPool.length, ?_⟩, ?_, ?_, ?_, ?_, ?_⟩ <;>
      simp [updateBestFromPair_candidates, updateBestFromPair_mates0,
        updateBestFromPair_mates1, updateBestFromPair_lists,
        (updateBestFromPair_events _ _ _ _ _).1, (updateBestFromPair_events _ _ _ _ _).2]

theorem processScoredPair_scoreLimit_le (p : ScoreParams) (inRevise : Bool)
    (candIdx mateIndex astrayEDPenalty : ℕ) (fewerEndMatchProbability : ℚ)
    (mate2 : ScoringMateCandidate) (s2 : Phase3State)
    (hM : p.maxK + p.extraSearchDepth + p.clusterEDCompensation < 2 ^ 31)
    (hs : s2.scoreLimit ≤ p.maxK + p.extraSearchDepth + p.clusterEDCompensation) :
    (processScoredPair p inRevise candIdx mateIndex astrayEDPenalty
      fewerEndMatchProbability mate2 s2).scoreLimit ≤
      p.maxK + p.extraSearchDepth + p.clusterEDCompensation := by
  simp only [processScoredPair]
  split
  · exact updateBestFromPair_scoreLimit_le _ _ _ _ _ hM hs
  · exact updateBestFromPair_scoreLimit_le _ _ _ _ _ hM hs

theorem mates_eq_of_parts (t u : Phase3State) (h0 : t.mates0 = u.mates0)
    (h1 : t.mates1 = u.mates1) : ∀ sp, t.mates sp = u.mates sp := by
  intro sp
  simp only [Phase3State.mates, h0, h1]

theorem mateLocAt_set_events (X : Phase3State) (e : List (ℤ × ℤ)) :
    ∀ sp j, mateLocAt { X with mateScoreEvents := e } sp j = mateLocAt X sp j :=
  fun _ _ => rfl

theorem maybeRescore_char (oracle : ScoreOracle) (readWithMoreHits candIdx mateIndex : ℕ)
    (mateLimit : ℕ) (s : Phase3State) :
    (maybeRescore oracle readWithMoreHits candIdx mateIndex mateLimit s).2.candidates =
        s.candidates ∧
    (maybeRescore oracle readWithMoreHits candIdx mateIndex mateLimit
        s).2.scoringCandidateLists = s.scoringCandidateLists ∧
    (maybeRescore oracle readWithMoreHits candIdx mateIndex mateLimit s).2.scoreLimit =
        s.scoreLimit ∧
    (maybeRescore oracle readWithMoreHits candIdx mateIndex mateLimit
        s).2.bestCompensatedScore = s.bestCompensatedScore ∧
    (maybeRescore oracle readWithMoreHits candIdx mateIndex mateLimit s).2.pairEvents =
        s.pairEvents ∧
    ((maybeRescore oracle readWithMoreHits candIdx mateIndex mateLimit
          s).2.mateScoreEvents = s.mateScoreEvents ∨
      (maybeRescore oracle readWithMoreHits candIdx mateIndex mateLimit
          s).2.mateScoreEvents = s.mateScoreEvents ++
        [((s.candidates.getD candIdx defaultCandidate).readWithFewerHitsGenomeLocation,
          mateLocAt s (s.candidates.getD candIdx defaultCandidate).whichSetPair
            mateIndex)]) ∧
    (∀ sp j, mateLocAt
        (maybeRescore oracle readWithMoreHits candIdx mateIndex mateLimit s).2 sp j =
      mateLocAt s sp j) ∧
    (maybeRescore oracle readWithMoreHits candIdx mateIndex mateLimit
        s).1.readWithMoreHitsGenomeLocation =
      mateLocAt s (s.candidates.getD candIdx defaultCandidate).whichSetPair mateIndex := by
  simp only [maybeRescore]
  split
  · refine ⟨?_, ?_, ?_, ?_, ?_, Or.inr ?_, ?_, ?_⟩
    · exact Phase3State.setMate_candidates s _ _ _
    · exact Phase3State.setMate_lists s _ _ _
    · exact Phase3State.setMate_scoreLimit s _ _ _
    · simp only [Phase3State.setMate]
      split <;> rfl
    · exact (Phase3State.setMate_events s _ _ _).2
    · rfl
    · intro sp j
      exact (mateLocAt_set_events _ _ sp j).trans (mateLocAt_setMate s _ _ _ (by rfl) sp j)
    · rfl
  · exact ⟨rfl, rfl, rfl, rfl, rfl, Or.inl rfl, fun sp j => rfl, rfl⟩

theorem maybeRescore_score_le (oracle : ScoreOracle) (readWithMoreHits candIdx mateIndex : ℕ)
    (mateLimit : ℕ) (s : Phase3State) (M : ℕ) (horacle : OracleOK oracle)
    (hlim : mateLimit ≤ M)
    (hmates : ∀ sp j, ((s.mates sp).getD j defaultMate).score ≤ (M : ℤ)) :
    (maybeRescore oracle readWithMoreHits candIdx mateIndex mateLimit s).1.score ≤ (M : ℤ) ∧
      ∀ sp j, (((maybeRescore oracle readWithMoreHits candIdx mateIndex mateLimit
          s).2.mates sp).getD j defaultMate).score ≤ (M : ℤ) := by
  have hans : ∀ q : ScoreQuery, q.scoreLimit = mateLimit → (oracle q).score ≤ (M : ℤ) := by
    intro q hq
    rcases horacle q with h | h
    · simp only [h]; omega
    · refine le_trans h.2 ?_
      rw [hq]
      exact_mod_cast hlim
  simp only [maybeRescore]
  split
  · refine ⟨hans _ rfl, fun sp j => ?_⟩
    exact mateScore_setMate_le s _ mateIndex _ M (hans _ rfl) hmates sp j
  · exact ⟨hmates _ mateIndex, hmates⟩

/-- The spacing-window property of one ghost event (candidate locus, mate
locus): the mate is within `maxSpacing` of the candidate and not within
`minSpacing`. -/
def windowOK (p : ScoreParams) (e : ℤ × ℤ) : Prop :=
  genomeLocationIsWithin e.2 e.1 p.maxSpacing = true ∧
  genomeLocationIsWithin e.2 e.1 p.minSpacing = false

/-- All ghost events logged so far satisfy the spacing-window property. -/
def EventsOK (p : ScoreParams) (s : Phase3State) : Prop :=
  (∀ e ∈ s.mateScoreEvents, windowOK p e) ∧ ∀ e ∈ s.pairEvents, windowOK p e

theorem mateStep_char (p : ScoreParams) (oracle : ScoreOracle)
    (readWithFewerHits readWithMoreHits : ℕ) (inRevise : Bool) (candIdx : ℕ)
    (compensatedScoreLimit astrayEDPenalty : ℕ) (fewerEndMatchProbability : ℚ)
    (mateIndex : ℕ) (s : Phase3State) :
    (∀ i, candShape ((mateStep p oracle readWithFewerHits readWithMoreHits inRevise candIdx
        compensatedScoreLimit astrayEDPenalty fewerEndMatchProbability mateIndex
        s).candidates.getD i defaultCandidate) =
      candShape (s.candidates.getD i defaultCandidate)) ∧
    (∀ i, ((mateStep p oracle readWithFewerHits readWithMoreHits inRevise candIdx
        compensatedScoreLimit astrayEDPenalty fewerEndMatchProbability mateIndex
        s).candidates.getD i defaultCandidate).fewerEndScore =
      (s.candidates.getD i defaultCandidate).fewerEndScore) ∧
    (∀ sp j, mateLocAt (mateStep p oracle readWithFewerHits readWithMoreHits inRevise candIdx
        compensatedScoreLimit astrayEDPenalty fewerEndMatchProbability mateIndex s) sp j =
      mateLocAt s sp j) ∧
    (mateStep p oracle readWithFewerHits readWithMoreHits inRevise candIdx
        compensatedScoreLimit astrayEDPenalty fewerEndMatchProbability mateIndex
        s).scoringCandidateLists = s.scoringCandidateLists := by
  simp only [mateStep]
  split
  · obtain ⟨hc, hl, hsl, hb, hpe, hme, hml, hmloc⟩ := maybeRescore_char oracle readWithMoreHits
      candIdx mateIndex
      (usub32 compensatedScoreLimit
        (s.candidates.getD candIdx defaultCandidate).fewerEndScore.toNat) s
    split
    · obtain ⟨⟨x, hx⟩, hm0, hm1, hli, hmse, hpes⟩ := processScoredPair_char p inRevise candIdx
        mateIndex astrayEDPenalty fewerEndMatchProbability
        (maybeRescore oracle readWithMoreHits candIdx mateIndex
          (usub32 compensatedScoreLimit
            (s.candidates.getD candIdx defaultCandidate).fewerEndScore.toNat) s).1
        (maybeRescore oracle readWithMoreHits candIdx mateIndex
          (usub32 compensatedScoreLimit
            (s.candidates.getD candIdx defaultCandidate).fewerEndScore.toNat) s).2
      have hmeq := mates_eq_of_parts _ _ hm0 hm1
      refine ⟨?_, ?_, ?_, ?_⟩
      · intro i
        rw [hx, hc]
        exact candShape_getD_set _ _ _ _ rfl
      · intro i
        rw [hx, hc]
        exact fewerEndScore_getD_set _ _ _ _ rfl
      · intro sp j
        have h1 : mateLocAt (processScoredPair p inRevise candIdx mateIndex astrayEDPenalty
            fewerEndMatchProbability
            (maybeRescore oracle readWithMoreHits candIdx mateIndex
              (usub32 compensatedScoreLimit
                (s.candidates.getD candIdx defaultCandidate).fewerEndScore.toNat) s).1
            (maybeRescore oracle readWithMoreHits candIdx mateIndex
              (usub32 compensatedScoreLimit
                (s.candidates.getD candIdx defaultCandidate).fewerEndScore.toNat) s).2) sp j =
            mateLocAt (maybeRescore oracle readWithMoreHits candIdx mateIndex
              (usub32 compensatedScoreLimit
                (s.candidates.getD candIdx defaultCandidate).fewerEndScore.toNat) s).2 sp j := by
          simp only [mateLocAt, hmeq sp]
        rw [h1]
        exact hml sp j
      · rw [hli, hl]
    · exact ⟨fun i => by rw [hc], fun i => by rw [hc], hml, hl⟩
  · exact ⟨fun i => rfl, fun i => rfl, fun sp j => rfl, rfl⟩

theorem mateStep_score_le (p : ScoreParams) (oracle : ScoreOracle)
    (readWithFewerHits readWithMoreHits : ℕ) (inRevise : Bool) (candIdx : ℕ)
    (compensatedScoreLimit astrayEDPenalty : ℕ) (fewerEndMatchProbability : ℚ)
    (mateIndex : ℕ) (s : Phase3State) (horacle : OracleOK oracle)
    (hM : p.maxK + p.extraSearchDepth + p.clusterEDCompensation < 2 ^ 31)
    (hs : s.scoreLimit ≤ p.maxK + p.extraSearchDepth + p.clusterEDCompensation)
    (hmates : ∀ sp j, ((s.mates sp).getD j defaultMate).score ≤
      ((p.maxK + p.extraSearchDepth + p.clusterEDCompensation : ℕ) : ℤ))
    (hcl : compensatedScoreLimit ≤ p.maxK + p.extraSearchDepth + p.clusterEDCompensation)
    (hfew : (s.candidates.getD candIdx defaultCandidate).fewerEndScore.toNat ≤
      compensatedScoreLimit) :
    (∀ sp j, (((mateStep p oracle readWithFewerHits readWithMoreHits inRevise candIdx
        compensatedScoreLimit astrayEDPenalty fewerEndMatchProbability mateIndex
        s).mates sp).getD j defaultMate).score ≤
      ((p.maxK + p.extraSearchDepth + p.clusterEDCompensation : ℕ) : ℤ)) ∧
    (mateStep p oracle readWithFewerHits readWithMoreHits inRevise candIdx
        compensatedScoreLimit astrayEDPenalty fewerEndMatchProbability mateIndex
        s).scoreLimit ≤ p.maxK + p.extraSearchDepth + p.clusterEDCompensation := by
  have hlim : usub32 compensatedScoreLimit
      (s.candidates.getD candIdx defaultCandidate).fewerEndScore.toNat ≤
      p.maxK + p.extraSearchDepth + p.clusterEDCompensation := by
    rw [usub32_of_le _ _ hfew (by omega)]
    omega
  simp only [mateStep]
  split
  · obtain ⟨hc, hl, hsl, hb, hpe, hme, hml, hmloc⟩ := maybeRescore_char oracle readWithMoreHits
      candIdx mateIndex
      (usub32 compensatedScoreLimit
        (s.candidates.getD candIdx defaultCandidate).fewerEndScore.toNat) s
    obtain ⟨h1, h2⟩ := maybeRescore_score_le oracle readWithMoreHits candIdx mateIndex
      (usub32 compensatedScoreLimit
        (s.candidates.getD candIdx defaultCandidate).fewerEndScore.toNat) s
      (p.maxK + p.extraSearchDepth + p.clusterEDCompensation) horacle hlim hmates
    split
    · obtain ⟨⟨x, hx⟩, hm0, hm1, hli, hmse, hpes⟩ := processScoredPair_char p inRevise candIdx
        mateIndex astrayEDPenalty fewerEndMatchProbability
        (maybeRescore oracle readWithMoreHits candIdx mateIndex
          (usub32 compensatedScoreLimit
            (s.candidates.getD candIdx defaultCandidate).fewerEndScore.toNat) s).1
        (maybeRescore oracle readWithMoreHits candIdx mateIndex
          (usub32 compensatedScoreLimit
            (s.candidates.getD candIdx defaultCandidate).fewerEndScore.toNat) s).2
      have hmeq := mates_eq_of_parts _ _ hm0 hm1
      constructor
      · intro sp j
        rw [hmeq sp]
        exact h2 sp j
      · refine processScoredPair_scoreLimit_le _ _ _ _ _ _ _ _ hM ?_
        rw [hsl]
        exact hs
    · exact ⟨h2, by rw [hsl]; exact hs⟩
  · exact ⟨hmates, hs⟩

theorem mateStep_events (p : ScoreParams) (oracle : ScoreOracle)
    (readWithFewerHits readWithMoreHits : ℕ) (inRevise : Bool) (candIdx : ℕ)
    (compensatedScoreLimit astrayEDPenalty : ℕ) (fewerEndMatchProbability : ℚ)
    (mateIndex : ℕ) (s : Phase3State) (hev : EventsOK p s)
    (hwin : genomeLocationIsWithin
      (mateLocAt s (s.candidates.getD candIdx defaultCandidate).whichSetPair mateIndex)
      (s.candidates.getD candIdx defaultCandidate).readWithFewerHitsGenomeLocation
      p.maxSpacing = true) :
    EventsOK p (mateStep p oracle readWithFewerHits readWithMoreHits inRevise candIdx
      compensatedScoreLimit astrayEDPenalty fewerEndMatchProbability mateIndex s) := by
  simp only [mateStep]
  split
  · next hgate =>
    have hmin : genomeLocationIsWithin
        (mateLocAt s (s.candidates.getD candIdx defaultCandidate).whichSetPair mateIndex)
        (s.candidates.getD candIdx defaultCandidate).readWithFewerHitsGenomeLocation
        p.minSpacing = false := by
      have h1 := hgate.1
      exact Bool.eq_false_iff.mpr h1
    have hwOK : windowOK p
        ((s.candidates.getD candIdx defaultCandidate).readWithFewerHitsGenomeLocation,
          mateLocAt s (s.candidates.getD candIdx defaultCandidate).whichSetPair mateIndex) :=
      ⟨hwin, hmin⟩
    obtain ⟨hc, hl, hsl, hb, hpe, hme, hml, hmloc⟩ := maybeRescore_char oracle readWithMoreHits
      candIdx mateIndex
      (usub32 compensatedScoreLimit
        (s.candidates.getD candIdx defaultCandidate).fewerEndScore.toNat) s
    have hevR : EventsOK p (maybeRescore oracle readWithMoreHits candIdx mateIndex
        (usub32 compensatedScoreLimit
          (s.candidates.getD candIdx defaultCandidate).fewerEndScore.toNat) s).2 := by
      constructor
      · intro e he
        rcases hme with hme | hme
        · rw [hme] at he
          exact hev.1 e he
        · rw [hme] at he
          rcases List.mem_append.mp he with he | he
          · exact hev.1 e he
          · rcases List.mem_singleton.mp he with rfl
            exact hwOK
      · intro e he
        rw [hpe] at he
        exact hev.2 e he
    split
    · obtain ⟨⟨x, hx⟩, hm0, hm1, hli, hmse, hpes⟩ := processScoredPair_char p inRevise candIdx
        mateIndex astrayEDPenalty fewerEndMatchProbability
        (maybeRescore oracle readWithMoreHits candIdx mateIndex
          (usub32 compensatedScoreLimit
            (s.candidates.getD candIdx defaultCandidate).fewerEndScore.toNat) s).1
        (maybeRescore oracle readWithMoreHits candIdx mateIndex
          (usub32 compensatedScoreLimit
            (s.candidates.getD candIdx defaultCandidate).fewerEndScore.toNat) s).2
      constructor
      · intro e he
        rw [hmse] at he
        exact hevR.1 e he
      · intro e he
        rw [hpes] at he
        rcases List.mem_append.mp he with he | he
        · exact hevR.2 e he
        · rcases List.mem_singleton.mp he with rfl
          rw [hc, hmloc]
          exact hwOK
    · exact hevR
  · exact hev

theorem candShape_parts {a b : ScoringCandidate} (h : candShape a = candShape b) :
    a.readWithFewerHitsGenomeLocation = b.readWithFewerHitsGenomeLocation ∧
    a.whichSetPair = b.whichSetPair ∧
    a.scoringMateCandidateIndex = b.scoringMateCandidateIndex ∧
    a.clusterIdx = b.clusterIdx := by
  simp only [candShape, Prod.mk.injEq] at h
  exact h

theorem mateLoop_char (p : ScoreParams) (oracle : ScoreOracle)
    (readWithFewerHits readWithMoreHits : ℕ) (inRevise : Bool) (candIdx : ℕ)
    (compensatedScoreLimit astrayEDPenalty : ℕ) (fewerEndMatchProbability : ℚ)
    (m : ℕ) (s : Phase3State) :
    (∀ i, candShape ((mateLoop p oracle readWithFewerHits readWithMoreHits inRevise candIdx
        compensatedScoreLimit astrayEDPenalty fewerEndMatchProbability m
        s).candidates.getD i defaultCandidate) =
      candShape (s.candidates.getD i defaultCandidate)) ∧
    (∀ i, ((mateLoop p oracle readWithFewerHits readWithMoreHits inRevise candIdx
        compensatedScoreLimit astrayEDPenalty fewerEndMatchProbability m
        s).candidates.getD i defaultCandidate).fewerEndScore =
      (s.candidates.getD i defaultCandidate).fewerEndScore) ∧
    (∀ sp j, mateLocAt (mateLoop p oracle readWithFewerHits readWithMoreHits inRevise candIdx
        compensatedScoreLimit astrayEDPenalty fewerEndMatchProbability m s) sp j =
      mateLocAt s sp j) ∧
    (mateLoop p oracle readWithFewerHits readWithMoreHits inRevise candIdx
        compensatedScoreLimit astrayEDPenalty fewerEndMatchProbability m
        s).scoringCandidateLists = s.scoringCandidateLists := by
  induction m generalizing s with
  | zero =>
    exact mateStep_char p oracle readWithFewerHits readWithMoreHits inRevise candIdx
      compensatedScoreLimit astrayEDPenalty fewerEndMatchProbability 0 s
  | succ m ih =>
    obtain ⟨h1, h2, h3, h4⟩ := mateStep_char p oracle readWithFewerHits readWithMoreHits
      inRevise candIdx compensatedScoreLimit astrayEDPenalty fewerEndMatchProbability
      (m + 1) s
    simp only [mateLoop]
    split
    · obtain ⟨g1, g2, g3, g4⟩ := ih (mateStep p oracle readWithFewerHits readWithMoreHits
        inRevise candIdx compensatedScoreLimit astrayEDPenalty fewerEndMatchProbability
        (m + 1) s)
      exact ⟨fun i => (g1 i).trans (h1 i), fun i => (g2 i).trans (h2 i),
        fun sp j => (g3 sp j).trans (h3 sp j), g4.trans h4⟩
    · exact ⟨h1, h2, h3, h4⟩

theorem mateLoop_score_le (p : ScoreParams) (oracle : ScoreOracle)
    (readWithFewerHits readWithMoreHits : ℕ) (inRevise : Bool) (candIdx : ℕ)
    (compensatedScoreLimit astrayEDPenalty : ℕ) (fewerEndMatchProbability : ℚ)
    (m : ℕ) (s : Phase3State) (horacle : OracleOK oracle)
    (hM : p.maxK + p.extraSearchDepth + p.clusterEDCompensation < 2 ^ 31)
    (hs : s.scoreLimit ≤ p.maxK + p.extraSearchDepth + p.clusterEDCompensation)
    (hmates : ∀ sp j, ((s.mates sp).getD j defaultMate).score ≤
      ((p.maxK + p.extraSearchDepth + p.clusterEDCompensation : ℕ) : ℤ))
    (hcl : compensatedScoreLimit ≤ p.maxK + p.extraSearchDepth + p.clusterEDCompensation)
    (hfew : (s.candidates.getD candIdx defaultCandidate).fewerEndScore.toNat ≤
      compensatedScoreLimit) :
    (∀ sp j, (((mateLoop p oracle readWithFewerHits readWithMoreHits inRevise candIdx
        compensatedScoreLimit astrayEDPenalty fewerEndMatchProbability m
        s).mates sp).getD j defaultMate).score ≤
      ((p.maxK + p.extraSearchDepth + p.clusterEDCompensation : ℕ) : ℤ)) ∧
    (mateLoop p oracle readWithFewerHits readWithMoreHits inRevise candIdx
        compensatedScoreLimit astrayEDPenalty fewerEndMatchProbability m
        s).scoreLimit ≤ p.maxK + p.extraSearchDepth + p.clusterEDCompensation := by
  induction m generalizing s with
  | zero =>
    exact mateStep_score_le p oracle readWithFewerHits readWithMoreHits inRevise candIdx
      compensatedScoreLimit astrayEDPenalty fewerEndMatchProbability 0 s horacle hM hs
      hmates hcl hfew
  | succ m ih =>
    obtain ⟨hm1, hsl1⟩ := mateStep_score_le p oracle readWithFewerHits readWithMoreHits
      inRevise candIdx compensatedScoreLimit astrayEDPenalty fewerEndMatchProbability
      (m + 1) s horacle hM hs hmates hcl hfew
    obtain ⟨h1, h2, h3, h4⟩ := mateStep_char p oracle readWithFewerHits readWithMoreHits
      inRevise candIdx compensatedScoreLimit astrayEDPenalty fewerEndMatchProbability
      (m + 1) s
    simp only [mateLoop]
    split
    · exact ih _ hsl1 hm1 (by rw [h2 candIdx]; exact hfew)
    · exact ⟨hm1, hsl1⟩

theorem mateLoop_events (p : ScoreParams) (oracle : ScoreOracle)
    (readWithFewerHits readWithMoreHits : ℕ) (inRevise : Bool) (candIdx : ℕ)
    (compensatedScoreLimit astrayEDPenalty : ℕ) (fewerEndMatchProbability : ℚ)
    (m : ℕ) (s : Phase3State) (hev : EventsOK p s)
    (hwin : genomeLocationIsWithin
      (mateLocAt s (s.candidates.getD candIdx defaultCandidate).whichSetPair m)
      (s.candidates.getD candIdx defaultCandidate).readWithFewerHitsGenomeLocation
      p.maxSpacing = true) :
    EventsOK p (mateLoop p oracle readWithFewerHits readWithMoreHits inRevise candIdx
      compensatedScoreLimit astrayEDPenalty fewerEndMatchProbability m s) := by
  induction m generalizing s with
  | zero =>
    exact mateStep_events p oracle readWithFewerHits readWithMoreHits inRevise candIdx
      compensatedScoreLimit astrayEDPenalty fewerEndMatchProbability 0 s hev hwin
  | succ m ih =>
    have hev1 := mateStep_events p oracle readWithFewerHits readWithMoreHits inRevise
      candIdx compensatedScoreLimit astrayEDPenalty fewerEndMatchProbability (m + 1) s
      hev hwin
    simp only [mateLoop]
    split
    · next h => exact ih _ hev1 h
    · exact hev1

theorem candidates_set_fields (s : Phase3State) (l : List ScoringCandidate) :
    ({ s with candidates := l } : Phase3State).candidates = l := rfl

theorem mates_set_candidates (s : Phase3State) (l : List ScoringCandidate) (sp : ℕ) :
    ({ s with candidates := l } : Phase3State).mates sp = s.mates sp := by
  by_cases h : sp = 0 <;> simp [Phase3State.mates, h]

theorem mateLocAt_set_candidates (s : Phase3State) (l : List ScoringCandidate) (sp j : ℕ) :
    mateLocAt { s with candidates := l } sp j = mateLocAt s sp j := by
  simp [mateLocAt, mates_set_candidates]

theorem scoreCandidate_char (p : ScoreParams) (oracle : ScoreOracle)
    (readWithFewerHits readWithMoreHits : ℕ) (inRevise : Bool) (candIdx : ℕ)
    (s : Phase3State) :
    (∀ i, candShape ((scoreCandidate p oracle readWithFewerHits readWithMoreHits inRevise
        candIdx s).candidates.getD i defaultCandidate) =
      candShape (s.candidates.getD i defaultCandidate)) ∧
    (∀ sp j, mateLocAt (scoreCandidate p oracle readWithFewerHits readWithMoreHits inRevise
        candIdx s) sp j = mateLocAt s sp j) ∧
    (scoreCandidate p oracle readWithFewerHits readWithMoreHits inRevise candIdx
        s).scoringCandidateLists = s.scoringCandidateLists := by
  simp only [scoreCandidate]
  generalize (if (s.candidates.getD candIdx defaultCandidate).clusterIdx = -1 then
    p.clusterEDCompensation else 0) = A
  split
  · refine ⟨fun i => ?_, fun sp j => ?_, ?_⟩
    · refine ((mateLoop_char p oracle readWithFewerHits readWithMoreHits inRevise candIdx
        _ _ _ _ _).1 i).trans ?_
      exact candShape_getD_set _ _ _ _ rfl
    · refine ((mateLoop_char p oracle readWithFewerHits readWithMoreHits inRevise candIdx
        _ _ _ _ _).2.2.1 sp j).trans ?_
      exact mateLocAt_set_candidates s _ sp j
    · exact (mateLoop_char p oracle readWithFewerHits readWithMoreHits inRevise candIdx
        _ _ _ _ _).2.2.2
  · exact ⟨fun i => candShape_getD_set _ _ _ _ rfl,
      fun sp j => mateLocAt_set_candidates s _ sp j, rfl⟩

theorem mateLoop_events_of_set (p : ScoreParams) (oracle : ScoreOracle)
    (readWithFewerHits readWithMoreHits : ℕ) (inRevise : Bool) (candIdx : ℕ)
    (compensatedScoreLimit astrayEDPenalty : ℕ) (fewerEndMatchProbability : ℚ)
    (m : ℕ) (c : ScoringCandidate) (s : Phase3State) (hev : EventsOK p s)
    (hsp : c.whichSetPair = (s.candidates.getD candIdx defaultCandidate).whichSetPair)
    (hloc : c.readWithFewerHitsGenomeLocation =
      (s.candidates.getD candIdx defaultCandidate).readWithFewerHitsGenomeLocation)
    (hwin : genomeLocationIsWithin
      (mateLocAt s (s.candidates.getD candIdx defaultCandidate).whichSetPair m)
      (s.candidates.getD candIdx defaultCandidate).readWithFewerHitsGenomeLocation
      p.maxSpacing = true) :
    EventsOK p (mateLoop p oracle readWithFewerHits readWithMoreHits inRevise candIdx
      compensatedScoreLimit astrayEDPenalty fewerEndMatchProbability m
      { s with candidates := s.candidates.set candIdx c }) := by
  refine mateLoop_events p oracle readWithFewerHits readWithMoreHits inRevise candIdx
    compensatedScoreLimit astrayEDPenalty fewerEndMatchProbability m _ hev ?_
  rw [mateLocAt_set_candidates, candidates_set_fields, getD_set]
  split
  · rw [hsp, hloc]
    exact hwin
  · exact hwin

theorem scoreCandidate_score_le (p : ScoreParams) (oracle : ScoreOracle)
    (readWithFewerHits readWithMoreHits : ℕ) (inRevise : Bool) (candIdx : ℕ)
    (s : Phase3State) (horacle : OracleOK oracle)
    (hM : p.maxK + p.extraSearchDepth + p.clusterEDCompensation < 2 ^ 31)
    (hs : s.scoreLimit ≤ p.maxK + p.extraSearchDepth + p.clusterEDCompensation)
    (hmates : ∀ sp j, ((s.mates sp).getD j defaultMate).score ≤
      ((p.maxK + p.extraSearchDepth + p.clusterEDCompensation : ℕ) : ℤ))
    (hcands : ∀ i, (s.candidates.getD i defaultCandidate).fewerEndScore ≤
      ((p.maxK + p.extraSearchDepth + p.clusterEDCompensation : ℕ) : ℤ))
    (hastray : (s.candidates.getD candIdx defaultCandidate).clusterIdx = -1 →
      p.clusterEDCompensation ≤ s.scoreLimit) :
    ((∀ sp j, (((scoreCandidate p oracle readWithFewerHits readWithMoreHits inRevise candIdx
        s).mates sp).getD j defaultMate).score ≤
      ((p.maxK + p.extraSearchDepth + p.clusterEDCompensation : ℕ) : ℤ)) ∧
    (scoreCandidate p oracle readWithFewerHits readWithMoreHits inRevise candIdx
        s).scoreLimit ≤ p.maxK + p.extraSearchDepth + p.clusterEDCompensation) ∧
    (∀ i, ((scoreCandidate p oracle readWithFewerHits readWithMoreHits inRevise candIdx
        s).candidates.getD i defaultCandidate).fewerEndScore ≤
      ((p.maxK + p.extraSearchDepth + p.clusterEDCompensation : ℕ) : ℤ)) := by
  have hap : (if (s.candidates.getD candIdx defaultCandidate).clusterIdx = -1 then
      p.clusterEDCompensation else 0) ≤ s.scoreLimit := by
    split
    · next h => exact hastray h
    · exact Nat.zero_le _
  have hcl : usub32 s.scoreLimit
      (if (s.candidates.getD candIdx defaultCandidate).clusterIdx = -1 then
        p.clusterEDCompensation else 0) ≤
      p.maxK + p.extraSearchDepth + p.clusterEDCompensation := by
    rw [usub32_of_le _ _ hap (by omega)]
    omega
  have hans := horacle
    { whichRead := readWithFewerHits
      direction := setPairDirectionScore
        (s.candidates.getD candIdx defaultCandidate).whichSetPair readWithFewerHits
      genomeLocation :=
        (s.candidates.getD candIdx defaultCandidate).readWithFewerHitsGenomeLocation
      seedOffset := (s.candidates.getD candIdx defaultCandidate).seedOffset
      scoreLimit := usub32 s.scoreLimit
        (if (s.candidates.getD candIdx defaultCandidate).clusterIdx = -1 then
          p.clusterEDCompensation else 0) }
  simp only [scoreCandidate]
  generalize hA : (if (s.candidates.getD candIdx defaultCandidate).clusterIdx = -1 then
    p.clusterEDCompensation else 0) = A
  rw [hA] at hcl hans
  split
  · constructor
    · refine mateLoop_score_le p oracle readWithFewerHits readWithMoreHits inRevise candIdx
        _ _ _ _ _ horacle hM hs ?_ hcl ?_
      · intro sp j
        rw [mates_set_candidates]
        exact hmates sp j
      · rw [candidates_set_fields, getD_set]
        split
        · rcases hans with hans | hans
          · simp only [hans]
            simp
          · exact Int.toNat_le.mpr hans.2
        · next h =>
          have hlen : s.candidates.length ≤ candIdx := by
            rcases Nat.lt_or_ge candIdx s.candidates.length with h2 | h2
            · exact absurd ⟨rfl, h2⟩ h
            · exact h2
          rw [List.getD_eq_default _ _ hlen]
          simp [defaultCandidate]
    · intro i
      refine le_of_eq_of_le ((mateLoop_char p oracle readWithFewerHits readWithMoreHits
        inRevise candIdx _ _ _ _ _).2.1 i) ?_
      rw [candidates_set_fields, getD_set]
      split
      · rcases hans with hans | hans
        · simp only [hans]
          omega
        · exact le_trans hans.2 (by exact_mod_cast hcl)
      · exact hcands i
  · refine ⟨⟨fun sp j => ?_, hs⟩, fun i => ?_⟩
    · rw [mates_set_candidates]
      exact hmates sp j
    · rw [candidates_set_fields, getD_set]
      split
      · rcases hans with hans | hans
        · simp only [hans]
          omega
        · exact le_trans hans.2 (by exact_mod_cast hcl)
      · exact hcands i

theorem scoreCandidate_events (p : ScoreParams) (oracle : ScoreOracle)
    (readWithFewerHits readWithMoreHits : ℕ) (inRevise : Bool) (candIdx : ℕ)
    (s : Phase3State) (hev : EventsOK p s)
    (hwin : genomeLocationIsWithin
      (mateLocAt s (s.candidates.getD candIdx defaultCandidate).whichSetPair
        (s.candidates.getD candIdx defaultCandidate).scoringMateCandidateIndex)
      (s.candidates.getD candIdx defaultCandidate).readWithFewerHitsGenomeLocation
      p.maxSpacing = true) :
    EventsOK p (scoreCandidate p oracle readWithFewerHits readWithMoreHits inRevise
      candIdx s) := by
  simp only [scoreCandidate]
  generalize (if (s.candidates.getD candIdx defaultCandidate).clusterIdx = -1 then
    p.clusterEDCompensation else 0) = A
  split
  · exact mateLoop_events_of_set p oracle readWithFewerHits readWithMoreHits inRevise
      candIdx _ _ _ _ _ s hev rfl rfl hwin
  · exact hev

theorem phase3Loop_events (p : ScoreParams) (oracle : ScoreOracle)
    (readWithFewerHits readWithMoreHits : ℕ) (inRevise : Bool)
    (maxUsedBestPossibleScoreList : ℕ) (fuel k : ℕ) (s : Phase3State)
    (hev : EventsOK p s)
    (hwf : ∀ k2 idx, idx ∈ s.scoringCandidateLists.getD k2 [] →
      genomeLocationIsWithin
        (mateLocAt s (s.candidates.getD idx defaultCandidate).whichSetPair
          (s.candidates.getD idx defaultCandidate).scoringMateCandidateIndex)
        (s.candidates.getD idx defaultCandidate).readWithFewerHitsGenomeLocation
        p.maxSpacing = true) :
    EventsOK p (phase3Loop p oracle readWithFewerHits readWithMoreHits inRevise
      maxUsedBestPossibleScoreList fuel k s) := by
  induction fuel generalizing k s with
  | zero => exact hev
  | succ fuel ih =>
    simp only [phase3Loop]
    split
    · split
      · exact ih (k + 1) s hev hwf
      · next candIdx rest heq =>
        have hmem : candIdx ∈ s.scoringCandidateLists.getD k [] := by
          rw [heq]
          exact List.mem_cons_self _ _
        have hev1 := scoreCandidate_events p oracle readWithFewerHits readWithMoreHits
          inRevise candIdx s hev (hwf k candIdx hmem)
        obtain ⟨g1, g2, g3⟩ := scoreCandidate_char p oracle readWithFewerHits
          readWithMoreHits inRevise candIdx s
        refine ih k _ hev1 ?_
        intro k2 idx hidx
        have hidx2 : idx ∈ ((scoreCandidate p oracle readWithFewerHits readWithMoreHits
            inRevise candIdx s).scoringCandidateLists.set k rest).getD k2 [] := hidx
        rw [g3, getD_set] at hidx2
        have hidx3 : idx ∈ s.scoringCandidateLists.getD k2 [] := by
          by_cases hk : k2 = k ∧ k < s.scoringCandidateLists.length
          · rw [if_pos hk] at hidx2
            rw [hk.1, heq]
            exact List.mem_cons_of_mem _ hidx2
          · rw [if_neg hk] at hidx2
            exact hidx2
        have hw1 : genomeLocationIsWithin
            (mateLocAt (scoreCandidate p oracle readWithFewerHits readWithMoreHits
                inRevise candIdx s)
              ((scoreCandidate p oracle readWithFewerHits readWithMoreHits inRevise candIdx
                s).candidates.getD idx defaultCandidate).whichSetPair
              ((scoreCandidate p oracle readWithFewerHits readWithMoreHits inRevise candIdx
                s).candidates.getD idx defaultCandidate).scoringMateCandidateIndex)
            ((scoreCandidate p oracle readWithFewerHits readWithMoreHits inRevise candIdx
              s).candidates.getD idx defaultCandidate).readWithFewerHitsGenomeLocation
            p.maxSpacing = true := by
          obtain ⟨e1, e2, e3, e4⟩ := candShape_parts (g1 idx)
          rw [e1, e2, e3, g2]
          exact hwf k2 idx hidx3
        exact hw1
    · exact hev

theorem phase3Loop_bound (p : ScoreParams) (oracle : ScoreOracle)
    (readWithFewerHits readWithMoreHits : ℕ) (inRevise : Bool)
    (maxUsedBestPossibleScoreList : ℕ) (fuel k : ℕ) (s : Phase3State)
    (horacle : OracleOK oracle)
    (hM : p.maxK + p.extraSearchDepth + p.clusterEDCompensation < 2 ^ 31)
    (hs : s.scoreLimit ≤ p.maxK + p.extraSearchDepth + p.clusterEDCompensation)
    (hmates : ∀ sp j, ((s.mates sp).getD j defaultMate).score ≤
      ((p.maxK + p.extraSearchDepth + p.clusterEDCompensation : ℕ) : ℤ))
    (hcands : ∀ i, (s.candidates.getD i defaultCandidate).fewerEndScore ≤
      ((p.maxK + p.extraSearchDepth + p.clusterEDCompensation : ℕ) : ℤ))
    (hla : ∀ k2 idx, idx ∈ s.scoringCandidateLists.getD k2 [] →
      (s.candidates.getD idx defaultCandidate).clusterIdx = -1 →
      p.clusterEDCompensation ≤ k2) :
    (∀ sp j, (((phase3Loop p oracle readWithFewerHits readWithMoreHits inRevise
        maxUsedBestPossibleScoreList fuel k s).mates sp).getD j defaultMate).score ≤
      ((p.maxK + p.extraSearchDepth + p.clusterEDCompensation : ℕ) : ℤ)) ∧
    (∀ i, ((phase3Loop p oracle readWithFewerHits readWithMoreHits inRevise
        maxUsedBestPossibleScoreList fuel k s).candidates.getD i
        defaultCandidate).fewerEndScore ≤
      ((p.maxK + p.extraSearchDepth + p.clusterEDCompensation : ℕ) : ℤ)) ∧
    (phase3Loop p oracle readWithFewerHits readWithMoreHits inRevise
        maxUsedBestPossibleScoreList fuel k s).scoreLimit ≤
      p.maxK + p.extraSearchDepth + p.clusterEDCompensation := by
  induction fuel generalizing k s with
  | zero => exact ⟨hmates, hcands, hs⟩
  | succ fuel ih =>
    simp only [phase3Loop]
    split
    · next hgate =>
      split
      · exact ih (k + 1) s hs hmates hcands hla
      · next candIdx rest heq =>
        have hmem : candIdx ∈ s.scoringCandidateLists.getD k [] := by
          rw [heq]
          exact List.mem_cons_self _ _
        have hastray : (s.candidates.getD candIdx defaultCandidate).clusterIdx = -1 →
            p.clusterEDCompensation ≤ s.scoreLimit :=
          fun hc => le_trans (hla k candIdx hmem hc) hgate.2
        obtain ⟨⟨hm1, hsl1⟩, hc1⟩ := scoreCandidate_score_le p oracle readWithFewerHits
          readWithMoreHits inRevise candIdx s horacle hM hs hmates hcands hastray
        obtain ⟨g1, g2, g3⟩ := scoreCandidate_char p oracle readWithFewerHits
          readWithMoreHits inRevise candIdx s
        refine ih k _ hsl1 hm1 hc1 ?_
        intro k2 idx hidx hcl
        have hidx2 : idx ∈ ((scoreCandidate p oracle readWithFewerHits readWithMoreHits
            inRevise candIdx s).scoringCandidateLists.set k rest).getD k2 [] := hidx
        rw [g3, getD_set] at hidx2
        have hidx3 : idx ∈ s.scoringCandidateLists.getD k2 [] := by
          by_cases hk : k2 = k ∧ k < s.scoringCandidateLists.length
          · rw [if_pos hk] at hidx2
            rw [hk.1, heq]
            exact List.mem_cons_of_mem _ hidx2
          · rw [if_neg hk] at hidx2
            exact hidx2
        have hcl2 : ((scoreCandidate p oracle readWithFewerHits readWithMoreHits inRevise
            candIdx s).candidates.getD idx defaultCandidate).clusterIdx = -1 := hcl
        rw [(candShape_parts (g1 idx)).2.2.2] at hcl2
        exact hla k2 idx hidx3 hcl2
    · exact ⟨hmates, hcands, hs⟩

/-- C5: every mate that `align_phase_3_score` scores against a candidate, and
every (candidate, mate) pair it forms, was gated by the spacing test of
TenXSingleAligner.cpp lines 774-894: under the phase-2 invariant that each
listed candidate's starting mate (`scoringMateCandidateIndex`) lies within
`maxSpacing` (the source's `_ASSERT` at line 777), every ghost event
`(candidate locus, mate locus)` recorded by the scoring loop has the mate
locus in `[c - maxSpacing, c - minSpacing] ∪ [c + minSpacing, c + maxSpacing]`
around the candidate locus `c`. -/
theorem align_phase_3_score_mate_spacing_window (p : ScoreParams) (oracle : ScoreOracle)
    (readWithFewerHits readWithMoreHits maxUsedBestPossibleScoreList : ℕ)
    (inRevise : Bool) (fuel : ℕ) (s : Phase3State)
    (hwf : ∀ k idx, idx ∈ s.scoringCandidateLists.getD k [] →
      genomeLocationIsWithin
        (mateLocAt s (s.candidates.getD idx defaultCandidate).whichSetPair
          (s.candidates.getD idx defaultCandidate).scoringMateCandidateIndex)
        (s.candidates.getD idx defaultCandidate).readWithFewerHitsGenomeLocation
        p.maxSpacing = true) :
    ∀ e ∈ (align_phase_3_score p oracle readWithFewerHits readWithMoreHits
        maxUsedBestPossibleScoreList inRevise fuel s).mateScoreEvents ++
      (align_phase_3_score p oracle readWithFewerHits readWithMoreHits
        maxUsedBestPossibleScoreList inRevise fuel s).pairEvents,
      (e.1 - (p.maxSpacing : ℤ) ≤ e.2 ∧ e.2 ≤ e.1 - (p.minSpacing : ℤ)) ∨
      (e.1 + (p.minSpacing : ℤ) ≤ e.2 ∧ e.2 ≤ e.1 + (p.maxSpacing : ℤ)) := by
  have hev : EventsOK p (align_phase_3_score p oracle readWithFewerHits readWithMoreHits
      maxUsedBestPossibleScoreList inRevise fuel s) := by
    simp only [align_phase_3_score]
    refine phase3Loop_events p oracle readWithFewerHits readWithMoreHits inRevise
      maxUsedBestPossibleScoreList fuel 0 _ ⟨?_, ?_⟩ ?_
    · intro e he
      exact absurd he (List.not_mem_nil e)
    · intro e he
      exact absurd he (List.not_mem_nil e)
    · exact hwf
  intro e he
  rcases List.mem_append.mp he with h | h
  · obtain ⟨h1, h2⟩ := hev.1 e h
    simp only [genomeLocationIsWithin, decide_eq_true_eq] at h1
    rw [genomeLocationIsWithin, decide_eq_false_iff_not] at h2
    omega
  · obtain ⟨h1, h2⟩ := hev.2 e h
    simp only [genomeLocationIsWithin, decide_eq_true_eq] at h1
    rw [genomeLocationIsWithin, decide_eq_false_iff_not] at h2
    omega

/-- Parameters for the spacing-window demonstration: `maxK = 5`,
`extraSearchDepth = 2`, `clusterEDCompensation = 3`, spacing window
`(50, 1000]`. -/
def c5Params : ScoreParams :=
  { maxK := 5, extraSearchDepth := 2, clusterEDCompensation := 3,
    minSpacing := 50, maxSpacing := 1000, noUkkonen := false }

/-- An oracle for the spacing-window demonstration that scores every query 1. -/
def c5Oracle : ScoreOracle := fun _ =>
  { score := 1, matchProbability := 0, genomeLocationOffset := 0 }

/-- The candidate of the spacing-window demonstration: clustered (cluster 2),
at locus 0, its mate run starting at mate index 0. -/
def c5Cand : ScoringCandidate :=
  { readWithFewerHitsGenomeLocation := 0
    whichSetPair := 0
    scoringMateCandidateIndex := 0
    seedOffset := 0
    bestPossibleScore := 0
    clusterIdx := 2
    fewerEndScore := -2
    fewerEndGenomeLocationOffset := 0
    mergeAnchor := none }

/-- The (not yet scored) mate of the spacing-window demonstration, at locus
100. -/
def c5Mate : ScoringMateCandidate :=
  { readWithMoreHitsGenomeLocation := 100
    bestPossibleScore := 0
    seedOffset := 0
    score := -2
    scoreLimit := 0
    matchProbability := 0
    genomeOffset := 0 }

/-- One clustered candidate at locus 0 whose single mate sits at locus 100,
inside the spacing window. -/
def c5State : Phase3State :=
  { candidates := [c5Cand]
    mates0 := [c5Mate]
    mates1 := []
    scoringCandidateLists := [[0]]
    mergeAnchorPool := []
    bestCompensatedScore := 11
    scoreLimit := 0
    mateScoreEvents := []
    pairEvents := [] }

/-- Witness for C5 at the concrete input: the event `(0, 100)` (candidate
locus 0, mate locus 100) is logged by the run and lies in the window. -/
theorem align_phase_3_score_mate_spacing_window_witness :
    (((0 : ℤ), (100 : ℤ)).1 - (c5Params.maxSpacing : ℤ) ≤ ((0 : ℤ), (100 : ℤ)).2 ∧
      ((0 : ℤ), (100 : ℤ)).2 ≤ ((0 : ℤ), (100 : ℤ)).1 - (c5Params.minSpacing : ℤ)) ∨
    (((0 : ℤ), (100 : ℤ)).1 + (c5Params.minSpacing : ℤ) ≤ ((0 : ℤ), (100 : ℤ)).2 ∧
      ((0 : ℤ), (100 : ℤ)).2 ≤ ((0 : ℤ), (100 : ℤ)).1 + (c5Params.maxSpacing : ℤ)) :=
  align_phase_3_score_mate_spacing_window c5Params c5Oracle 0 1 0 false 3 c5State
    (by
      intro k idx h
      rcases k with _ | k
      · simp only [c5State, List.getD_cons_zero] at h
        rw [List.mem_singleton] at h
        subst h
        decide
      · simp only [c5State, List.getD_cons_succ, List.getD_nil] at h
        exact absurd h (List.not_mem_nil idx))
    ((0 : ℤ), (100 : ℤ)) (by decide)

/-- Parameters for the pair-score demonstration: `maxK = 5`,
`extraSearchDepth = 2`, `clusterEDCompensation = 3`, spacing window
`(50, 1000]`. -/
def c4Params : ScoreParams :=
  { maxK := 5, extraSearchDepth := 2, clusterEDCompensation := 3,
    minSpacing := 50, maxSpacing := 1000, noUkkonen := false }

/-- An oracle for the pair-score demonstration: locus 0 (candidate A) scores
0, locus 100 (the shared mate) scores 7, anything else (candidate B at locus
200) scores 5.  Every answer respects the query's score limit in the runs
below. -/
def c4Oracle : ScoreOracle := fun q =>
  if q.genomeLocation = 0 then
    { score := 0, matchProbability := 0, genomeLocationOffset := 0 }
  else if q.genomeLocation = 100 then
    { score := 7, matchProbability := 0, genomeLocationOffset := 0 }
  else
    { score := 5, matchProbability := 0, genomeLocationOffset := 0 }

/-- Unclustered candidate A at locus 0; its mate run starts at mate index 0. -/
def c4CandA : ScoringCandidate :=
  { readWithFewerHitsGenomeLocation := 0
    whichSetPair := 0
    scoringMateCandidateIndex := 0
    seedOffset := 0
    bestPossibleScore := 0
    clusterIdx := -1
    fewerEndScore := -2
    fewerEndGenomeLocationOffset := 0
    mergeAnchor := none }

/-- Unclustered candidate B at locus 200, sharing the single mate. -/
def c4CandB : ScoringCandidate :=
  { readWithFewerHitsGenomeLocation := 200
    whichSetPair := 0
    scoringMateCandidateIndex := 0
    seedOffset := 0
    bestPossibleScore := 0
    clusterIdx := -1
    fewerEndScore := -2
    fewerEndGenomeLocationOffset := 0
    mergeAnchor := none }

/-- The shared unscored mate at locus 100. -/
def c4Mate : ScoringMateCandidate :=
  { readWithMoreHitsGenomeLocation := 100
    bestPossibleScore := 0
    seedOffset := 0
    score := -2
    scoreLimit := 0
    matchProbability := 0
    genomeOffset := 0 }

/-- Both candidates sit on weight list 3 (their cluster penalty), as phase 2
places unclustered candidates on list `bestPossibleScore +
clusterEDCompensation`. -/
def c4State : Phase3State :=
  { candidates := [c4CandA, c4CandB]
    mates0 := [c4Mate]
    mates1 := []
    scoringCandidateLists := [[], [], [], [0, 1]]
    mergeAnchorPool := []
    bestCompensatedScore := 11
    scoreLimit := 0
    mateScoreEvents := []
    pairEvents := [] }

/-- The state after the phase-3 scoring loop of the demonstration. -/
def c4Phase3 : Phase3State := align_phase_3_score c4Params c4Oracle 0 1 3 false 10 c4State

/-- The reported results of the demonstration: `correct_best` recomputes the
best compensated score over the anchor pool, then `generate_results` emits
the result records (minimum cluster size 1, up to 5 extra edit distance for
secondaries, unclustered probability penalty 0). -/
def c4Out : GenerateResultsOutput :=
  align_phase_3_generate_results c4Params.clusterEDCompensation 0 (fun _ => 0) 1
    c4Phase3.candidates c4Phase3.mates0 c4Phase3.mates1 c4Phase3.mergeAnchorPool
    1 5
    (align_phase_3_correct_best_score c4Params.maxK c4Params.extraSearchDepth
      c4Params.clusterEDCompensation 1 (fun _ => 0) c4Phase3.mergeAnchorPool 11).1
    [blankResult, blankResult] blankResult

/-- Candidate A as phase 3 leaves it: fewer-end score 0, holding anchor 0. -/
def c4CandA2 : ScoringCandidate :=
  { readWithFewerHitsGenomeLocation := 0
    whichSetPair := 0
    scoringMateCandidateIndex := 0
    seedOffset := 0
    bestPossibleScore := 0
    clusterIdx := -1
    fewerEndScore := 0
    fewerEndGenomeLocationOffset := 0
    mergeAnchor := some 0 }

/-- Candidate B as phase 3 leaves it: fewer-end score 5, holding anchor 1. -/
def c4CandB2 : ScoringCandidate :=
  { readWithFewerHitsGenomeLocation := 200
    whichSetPair := 0
    scoringMateCandidateIndex := 0
    seedOffset := 0
    bestPossibleScore := 0
    clusterIdx := -1
    fewerEndScore := 5
    fewerEndGenomeLocationOffset := 0
    mergeAnchor := some 1 }

/-- The shared mate as phase 3 leaves it: scored 7 at score limit 7 (cached
while scoring candidate A). -/
def c4Mate2 : ScoringMateCandidate :=
  { readWithMoreHitsGenomeLocation := 100
    bestPossibleScore := 0
    seedOffset := 0
    score := 7
    scoreLimit := 7
    matchProbability := 0
    genomeOffset := 0 }

/-- The anchor created for candidate A's pair: pair score `7 = 0 + 7`. -/
def c4Anchor0 : MergeAnchor :=
  { locationForReadWithMoreHits := some 100
    locationForReadWithFewerHits := 0
    matchProbability := 0 * 0
    pairScore := 7
    clusterIdx := -1
    candidateIdx := 0
    mateIdx := 0
    anchorSetPair := 0 }

/-- The anchor created for candidate B's pair: pair score `12 = 5 + 7`,
reusing the mate score cached at candidate A's higher effective limit. -/
def c4Anchor1 : MergeAnchor :=
  { locationForReadWithMoreHits := some 100
    locationForReadWithFewerHits := 200
    matchProbability := 0 * 0
    pairScore := 12
    clusterIdx := -1
    candidateIdx := 1
    mateIdx := 0
    anchorSetPair := 0 }

/-- C4: counterexample.  In the demonstration, candidate B (fewer-end score
5, scored at the cluster-compensated limit 7) reuses the mate score 7 cached
while scoring candidate A, so the pair it reports carries uncompensated pair
score `5 + 7 = 12`, exceeding `maxK + extraSearchDepth = 7`; the record is
even returned as the best result.  The claimed bound
`pairScore ≤ maxK + extraSearchDepth` therefore fails on the code. -/
theorem generate_results_reports_pair_score_above_maxK_plus_esd :
    c4Out.bestResult.scoreFewer + c4Out.bestResult.scoreMore = 12 ∧
    ¬(c4Out.bestResult.scoreFewer + c4Out.bestResult.scoreMore ≤
      (c4Params.maxK : ℤ) + (c4Params.extraSearchDepth : ℤ)) := by
  have hcands : c4Phase3.candidates = [c4CandA2, c4CandB2] := rfl
  have hm0 : c4Phase3.mates0 = [c4Mate2] := rfl
  have hm1 : c4Phase3.mates1 = [] := rfl
  have hpool : c4Phase3.mergeAnchorPool = [c4Anchor0, c4Anchor1] := rfl
  rw [c4Out, hcands, hm0, hm1, hpool]
  norm_num [align_phase_3_generate_results, generateStep,
    align_phase_3_correct_best_score, correctBestNewScore, correctBestCompensated,
    toU32, intOfU32, c4Params, c4Anchor0, c4Anchor1, c4CandA2, c4CandB2, c4Mate2,
    blankResult, setPairDirectionSurrogate, List.getD, defaultCandidate, defaultMate,
    defaultAnchor, Int.toNat_ofNat]
  decide

/-- The reported-results pipeline: run the phase-3 scoring loop, then emit
result records from the resulting candidate/mate/anchor state with
`align_phase_3_generate_results` (the caller supplies the
`bestCompensatedScore` reference, normally refreshed by
`align_phase_3_correct_best_score` in between). -/
def scoreThenGenerate (p : ScoreParams) (oracle : ScoreOracle)
    (readWithFewerHits readWithMoreHits maxUsedBestPossibleScoreList : ℕ)
    (inRevise : Bool) (fuel : ℕ) (s : Phase3State)
    (unclusteredPenalty : ℚ) (clusterCounterAry : ℤ → ℕ) (minClusterSize : ℕ)
    (maxEditDistanceForSecondaryResults bestCompensatedScore : ℤ)
    (secondaryResults : List PairedAlignmentResult)
    (bestResultIn : PairedAlignmentResult) : GenerateResultsOutput :=
  let t := align_phase_3_score p oracle readWithFewerHits readWithMoreHits
    maxUsedBestPossibleScoreList inRevise fuel s
  align_phase_3_generate_results p.clusterEDCompensation unclusteredPenalty clusterCounterAry
    readWithMoreHits t.candidates t.mates0 t.mates1 t.mergeAnchorPool minClusterSize
    maxEditDistanceForSecondaryResults bestCompensatedScore secondaryResults bestResultIn

theorem getD_mem_of_lt {α : Type _} (l : List α) (n : ℕ) (d : α) (h : n < l.length) :
    l.getD n d ∈ l := by
  rw [List.getD_eq_getElem l d h]
  exact List.getElem_mem h

theorem getD_bound_of_forall {α : Type _} (l : List α) (n : ℕ) (d : α) (P : α → Prop)
    (h : ∀ r ∈ l, P r) (hd : P d) : P (l.getD n d) := by
  by_cases hlen : n < l.length
  · exact h _ (getD_mem_of_lt _ _ _ hlen)
  · rw [List.getD_eq_default _ _ (le_of_not_lt hlen)]
    exact hd

theorem generateStep_buffer_bound (clusterEDCompensation : ℕ) (unclusteredPenalty : ℚ)
    (clusterCounterAry : ℤ → ℕ) (minClusterSize EDResultCutOff readWithMoreHits : ℕ)
    (candidates : List ScoringCandidate) (mates0 mates1 : List ScoringMateCandidate)
    (M : ℕ)
    (hc : ∀ i, (candidates.getD i defaultCandidate).fewerEndScore ≤ (M : ℤ))
    (hm0 : ∀ j, (mates0.getD j defaultMate).score ≤ (M : ℤ))
    (hm1 : ∀ j, (mates1.getD j defaultMate).score ≤ (M : ℤ))
    (acc : GenerateAcc) (anchor : MergeAnchor)
    (hb : ∀ r ∈ acc.buffer, r.scoreFewer + r.scoreMore ≤ (2 * M : ℤ)) :
    ∀ r ∈ (generateStep clusterEDCompensation unclusteredPenalty clusterCounterAry
        minClusterSize EDResultCutOff readWithMoreHits candidates mates0 mates1
        acc anchor).buffer,
      r.scoreFewer + r.scoreMore ≤ (2 * M : ℤ) := by
  have h2 : ((if anchor.anchorSetPair = 0 then mates0 else mates1).getD anchor.mateIdx
      defaultMate).score ≤ (M : ℤ) := by
    split
    · exact hm0 _
    · exact hm1 _
  intro r hr
  simp only [generateStep] at hr
  split at hr <;> split at hr <;> try split at hr
  all_goals first
    | exact hb r hr
    | (rcases List.mem_or_eq_of_mem_set hr with h | rfl
       exacts [hb r h, le_trans (add_le_add (hc anchor.candidateIdx) h2) (by omega)])

theorem generate_foldl_buffer_bound (clusterEDCompensation : ℕ) (unclusteredPenalty : ℚ)
    (clusterCounterAry : ℤ → ℕ) (minClusterSize EDResultCutOff readWithMoreHits : ℕ)
    (candidates : List ScoringCandidate) (mates0 mates1 : List ScoringMateCandidate)
    (M : ℕ)
    (hc : ∀ i, (candidates.getD i defaultCandidate).fewerEndScore ≤ (M : ℤ))
    (hm0 : ∀ j, (mates0.getD j defaultMate).score ≤ (M : ℤ))
    (hm1 : ∀ j, (mates1.getD j defaultMate).score ≤ (M : ℤ))
    (anchors : List MergeAnchor) :
    ∀ (acc : GenerateAcc),
      (∀ r ∈ acc.buffer, r.scoreFewer + r.scoreMore ≤ (2 * M : ℤ)) →
      ∀ r ∈ (anchors.foldl (generateStep clusterEDCompensation unclusteredPenalty
          clusterCounterAry minClusterSize EDResultCutOff readWithMoreHits candidates
          mates0 mates1) acc).buffer,
        r.scoreFewer + r.scoreMore ≤ (2 * M : ℤ) := by
  induction anchors with
  | nil =>
    intro acc hb
    simpa using hb
  | cons a t ih =>
    intro acc hb
    rw [List.foldl_cons]
    exact ih _ (generateStep_buffer_bound clusterEDCompensation unclusteredPenalty
      clusterCounterAry minClusterSize EDResultCutOff readWithMoreHits candidates
      mates0 mates1 M hc hm0 hm1 acc a hb)

/-- C4 (amended): in the non-revise scoring pass, every per-end score phase 3
records is at most `M = maxK + extraSearchDepth + clusterEDCompensation` (the
clustered score limit), so every pair reported by `generate_results` (the best
result or any secondary) carries an uncompensated pair score
`score[fewer] + score[more]` of at most `2 * M` — rather than the claimed
`maxK + extraSearchDepth`.  Hypotheses: the scoring oracle respects its score
limit, the incoming mate/candidate scores respect `M` (phase 2 initialises
them to `-2`), unclustered candidates sit on weight lists at least
`clusterEDCompensation` deep (how `add_candidate` places them), and the
caller's secondary-result buffer starts within the bound. -/
theorem align_phase_3_reported_pair_scores_bounded (p : ScoreParams)
    (oracle : ScoreOracle)
    (readWithFewerHits readWithMoreHits maxUsedBestPossibleScoreList : ℕ)
    (fuel : ℕ) (s : Phase3State)
    (unclusteredPenalty : ℚ) (clusterCounterAry : ℤ → ℕ) (minClusterSize : ℕ)
    (maxEditDistanceForSecondaryResults bestCompensatedScore : ℤ)
    (secondaryResults : List PairedAlignmentResult)
    (bestResultIn : PairedAlignmentResult)
    (horacle : OracleOK oracle)
    (hM : p.maxK + p.extraSearchDepth + p.clusterEDCompensation < 2 ^ 31)
    (hmates : ∀ sp j, ((s.mates sp).getD j defaultMate).score ≤
      ((p.maxK + p.extraSearchDepth + p.clusterEDCompensation : ℕ) : ℤ))
    (hcands : ∀ i, (s.candidates.getD i defaultCandidate).fewerEndScore ≤
      ((p.maxK + p.extraSearchDepth + p.clusterEDCompensation : ℕ) : ℤ))
    (hla : ∀ k idx, idx ∈ s.scoringCandidateLists.getD k [] →
      (s.candidates.getD idx defaultCandidate).clusterIdx = -1 →
      p.clusterEDCompensation ≤ k)
    (hbuf : ∀ r ∈ secondaryResults, r.scoreFewer + r.scoreMore ≤
      (2 * (p.maxK + p.extraSearchDepth + p.clusterEDCompensation : ℕ) : ℤ)) :
    (scoreThenGenerate p oracle readWithFewerHits readWithMoreHits
        maxUsedBestPossibleScoreList false fuel s unclusteredPenalty clusterCounterAry
        minClusterSize maxEditDistanceForSecondaryResults bestCompensatedScore
        secondaryResults bestResultIn).bestResult.scoreFewer +
      (scoreThenGenerate p oracle readWithFewerHits readWithMoreHits
        maxUsedBestPossibleScoreList false fuel s unclusteredPenalty clusterCounterAry
        minClusterSize maxEditDistanceForSecondaryResults bestCompensatedScore
        secondaryResults bestResultIn).bestResult.scoreMore ≤
      (2 * (p.maxK + p.extraSearchDepth + p.clusterEDCompensation : ℕ) : ℤ) ∧
    ∀ r ∈ (scoreThenGenerate p oracle readWithFewerHits readWithMoreHits
        maxUsedBestPossibleScoreList false fuel s unclusteredPenalty clusterCounterAry
        minClusterSize maxEditDistanceForSecondaryResults bestCompensatedScore
        secondaryResults bestResultIn).secondaryBuffer,
      r.scoreFewer + r.scoreMore ≤
        (2 * (p.maxK + p.extraSearchDepth + p.clusterEDCompensation : ℕ) : ℤ) := by
  have hb3 := phase3Loop_bound p oracle readWithFewerHits readWithMoreHits false
    maxUsedBestPossibleScoreList fuel 0
    { s with
      scoreLimit := (p.maxK + p.extraSearchDepth + p.clusterEDCompensation) % 2 ^ 32
      mateScoreEvents := []
      pairEvents := [] }
    horacle hM (Nat.mod_le _ _) hmates hcands hla
  have hc' : ∀ i, ((align_phase_3_score p oracle readWithFewerHits readWithMoreHits
      maxUsedBestPossibleScoreList false fuel s).candidates.getD i
      defaultCandidate).fewerEndScore ≤
      ((p.maxK + p.extraSearchDepth + p.clusterEDCompensation : ℕ) : ℤ) := hb3.2.1
  have hm0' : ∀ j, ((align_phase_3_score p oracle readWithFewerHits readWithMoreHits
      maxUsedBestPossibleScoreList false fuel s).mates0.getD j defaultMate).score ≤
      ((p.maxK + p.extraSearchDepth + p.clusterEDCompensation : ℕ) : ℤ) :=
    fun j => hb3.1 0 j
  have hm1' : ∀ j, ((align_phase_3_score p oracle readWithFewerHits readWithMoreHits
      maxUsedBestPossibleScoreList false fuel s).mates1.getD j defaultMate).score ≤
      ((p.maxK + p.extraSearchDepth + p.clusterEDCompensation : ℕ) : ℤ) :=
    fun j => hb3.1 1 j
  have hfold := generate_foldl_buffer_bound p.clusterEDCompensation unclusteredPenalty
    clusterCounterAry minClusterSize
    (toU32 (bestCompensatedScore + maxEditDistanceForSecondaryResults)) readWithMoreHits
    (align_phase_3_score p oracle readWithFewerHits readWithMoreHits
      maxUsedBestPossibleScoreList false fuel s).candidates
    (align_phase_3_score p oracle readWithFewerHits readWithMoreHits
      maxUsedBestPossibleScoreList false fuel s).mates0
    (align_phase_3_score p oracle readWithFewerHits readWithMoreHits
      maxUsedBestPossibleScoreList false fuel s).mates1
    (p.maxK + p.extraSearchDepth + p.clusterEDCompensation) hc' hm0' hm1'
    (align_phase_3_score p oracle readWithFewerHits readWithMoreHits
      maxUsedBestPossibleScoreList false fuel s).mergeAnchorPool
    { nextResultIdx := 0, bestResultIdx := -1,
      bestCompensatedScore := bestCompensatedScore,
      probabilityOfBestPair := 0, buffer := secondaryResults } hbuf
  have hblank : blankResult.scoreFewer + blankResult.scoreMore ≤
      (2 * (p.maxK + p.extraSearchDepth + p.clusterEDCompensation : ℕ) : ℤ) := by
    have h0 : (0 : ℤ) ≤ 2 * ((p.maxK + p.extraSearchDepth + p.clusterEDCompensation : ℕ) : ℤ) := by
      positivity
    simpa [blankResult] using h0
  simp only [scoreThenGenerate, align_phase_3_generate_results]
  split
  · constructor
    · exact getD_bound_of_forall _ _ _
        (fun r : PairedAlignmentResult => r.scoreFewer + r.scoreMore ≤
          (2 * (p.maxK + p.extraSearchDepth + p.clusterEDCompensation : ℕ) : ℤ))
        hfold hblank
    · intro r hr
      rcases List.mem_or_eq_of_mem_set hr with h | h
      · exact hfold r h
      · subst h
        exact getD_bound_of_forall _ _ _
          (fun r : PairedAlignmentResult => r.scoreFewer + r.scoreMore ≤
            (2 * (p.maxK + p.extraSearchDepth + p.clusterEDCompensation : ℕ) : ℤ))
          hfold hblank
  · constructor
    · have hneg : ((-1 : ℤ)) + (-1) ≤
          2 * ((p.maxK + p.extraSearchDepth + p.clusterEDCompensation : ℕ) : ℤ) := by
        omega
      exact hneg
    · intro r hr
      exact hfold r hr

/-- An oracle answering `-1` (limit exceeded) everywhere; it trivially
respects every score limit. -/
def c4BoundOracle : ScoreOracle := fun _ =>
  { score := -1, matchProbability := 0, genomeLocationOffset := 0 }

/-- An empty phase-3 state for the bound witness. -/
def c4EmptyState : Phase3State :=
  { candidates := []
    mates0 := []
    mates1 := []
    scoringCandidateLists := []
    mergeAnchorPool := []
    bestCompensatedScore := 11
    scoreLimit := 0
    mateScoreEvents := []
    pairEvents := [] }

/-- Witness for the amended C4 bound at a concrete input: the reported best
result's pair score respects `2 * (maxK + extraSearchDepth +
clusterEDCompensation)`. -/
theorem align_phase_3_reported_pair_scores_bounded_witness :
    (scoreThenGenerate c4Params c4BoundOracle 0 1 0 false 1 c4EmptyState 0 (fun _ => 0) 1
        5 11 [] blankResult).bestResult.scoreFewer +
      (scoreThenGenerate c4Params c4BoundOracle 0 1 0 false 1 c4EmptyState 0 (fun _ => 0) 1
        5 11 [] blankResult).bestResult.scoreMore ≤
      (2 * (c4Params.maxK + c4Params.extraSearchDepth + c4Params.clusterEDCompensation :
        ℕ) : ℤ) :=
  (align_phase_3_reported_pair_scores_bounded c4Params c4BoundOracle 0 1 0 1 c4EmptyState
    0 (fun _ => 0) 1 5 11 [] blankResult
    (fun _ => Or.inl rfl)
    (by norm_num [c4Params])
    (by
      intro sp j
      by_cases h : sp = 0 <;>
        simp [c4EmptyState, Phase3State.mates, h, List.getD_nil, defaultMate, c4Params])
    (by intro i; simp [c4EmptyState, List.getD_nil, defaultCandidate, c4Params])
    (by
      intro k idx h
      simp only [c4EmptyState] at h
      rw [List.getD_nil] at h
      exact absurd h (List.not_mem_nil idx))
    (by
      intro r hr
      exact absurd hr (List.not_mem_nil r))).1

end TenXSingleAligner








